import Mathlib

/-!
# Batch updater for NRP locations and services

A shallow embedding of `pkg/provider/azure_location_and_nrp_service_batch_updater.go`
(`mergeMaps`, the two `NRPAPIClientUpdateNRP*` clients and
`locationAndNRPServiceBatchUpdater.process`) together with the properties of the
ordered sync protocol, the endpoint correlation and the retry policy.
-/

set_option autoImplicit false

namespace BatchUpdater

/-! ## Go maps -/

/-- A Go `map[K]V` value: finitely many entries, at most one per key. The order of
`entries` is the order a `range` over the map happens to yield them. A nil map
ranges like the empty map and has length zero, so both are the empty `GoMap`
wherever a map is only read. -/
structure GoMap (K V : Type) where
  entries : List (K × V)
  nodupKeys : (entries.map Prod.fst).Nodup

namespace GoMap

variable {K V : Type}

/-- The value of `make(map[K]V)`. -/
def empty : GoMap K V := ⟨[], List.nodup_nil⟩

/-- The value of `len(m)`. -/
def len (m : GoMap K V) : Nat := m.entries.length

/-- The lookup `m[k]` with its presence flag, as an option. -/
def get? [DecidableEq K] (m : GoMap K V) (k : K) : Option V :=
  (m.entries.find? (fun e => decide (e.1 = k))).map Prod.snd

/-- Whether `k` is a key of `m`. -/
def contains [DecidableEq K] (m : GoMap K V) (k : K) : Bool := (m.get? k).isSome

/-- The assignment `m[k] = v`: the entry of `k`, if any, is replaced. -/
def set [DecidableEq K] (m : GoMap K V) (k : K) (v : V) : GoMap K V :=
  ⟨(k, v) :: m.entries.filter (fun e => decide (e.1 ≠ k)), by
    rw [List.map_cons]
    refine List.nodup_cons.2 ⟨?_, ?_⟩
    · intro h
      rcases List.mem_map.1 h with ⟨e, he, hk⟩
      have h2 := (List.mem_filter.1 he).2
      simp [hk] at h2
    · exact List.Nodup.sublist
        (List.Sublist.map Prod.fst (List.filter_sublist m.entries)) m.nodupKeys⟩

instance [DecidableEq K] [DecidableEq V] : DecidableEq (GoMap K V) := fun a b =>
  decidable_of_iff (a.entries = b.entries)
    ⟨fun h => by cases a; cases b; cases h; rfl, fun h => by rw [h]⟩

/-- The value an assignment leaves at a key: the value assigned, if one is, and the
value held before otherwise. -/
def overwrite {V : Type} (assigned before : Option V) : Option V :=
  match assigned with
  | some v => some v
  | none => before

end GoMap

/-- Source lines 318-326, `mergeMaps`: a fresh map receives every entry of every
argument, the arguments in order, each assignment `result[k] = v` overwriting. -/
def mergeMaps {K V : Type} [DecidableEq K] (maps : List (GoMap K V)) : GoMap K V :=
  maps.foldl (fun result m => m.entries.foldl (fun r e => r.set e.1 e.2) result) GoMap.empty

/-! ## The remote sync client -/

/-- The outcome of one `client.Do(req)`: a non-nil `err` (transport level), or a
response, of which the client reads the status code only. -/
inductive AttemptOutcome where
  | transportError (err : String)
  | response (statusCode : Int)
  deriving DecidableEq, Repr

/-- The request both clients build: a POST of the serialized DTO with content type
`application/json`. -/
structure Request where
  method : String
  url : String
  body : String
  contentType : String
  deriving DecidableEq, Repr

/-- The surroundings of one client call. `marshal` is `json.Marshal` on the DTO,
`newRequestErr` the error of `http.NewRequestWithContext` for a URL (`none` is nil),
`clientDo req i` what the call of `client.Do(req)` in loop iteration `i` yields, and
`ctxDone i` tells how the `select` of iteration `i` ends: `some e` when `ctx.Done()`
is taken, `e` being `ctx.Err()`, and `none` when `time.After(backoff)` is taken. -/
structure Transport (DTO : Type) where
  marshal : DTO → Except String String
  newRequestErr : String → Option String
  clientDo : Request → Nat → AttemptOutcome
  ctxDone : Nat → Option String

/-- The non-nil errors a client returns, one constructor per `fmt.Errorf` of the
source; the argument is the wrapped error or the reported status code.
`nilResponse` stands for the nil dereference of `resp.Body` that a loop without any
iteration would run into. -/
inductive NRPError where
  | marshalFailed (err : String)
  | createRequestFailed (err : String)
  | cancelledDuringRetry (ctxErr : String)
  | sendFailed (err : String)
  | nonSuccessStatus (statusCode : Int)
  | nilResponse
  deriving DecidableEq, Repr

/-- What a client call does besides returning: the attempts it makes and the backoff
waits it starts, in order. A wait either runs its full duration or is cut short by
the context. Durations are in nanoseconds, as `time.Duration`. -/
inductive ClientEvent where
  | attempt (i : Nat) (outcome : AttemptOutcome)
  | backoffElapsed (backoff : Nat)
  | backoffCancelled (backoff : Nat)
  deriving DecidableEq, Repr

/-- The constant `time.Second`, in nanoseconds. -/
def Second : Nat := 1000000000

/-- The local `maxRetries := 3` of both clients. -/
def maxRetries : Nat := 3

/-- How the retry loop is left: by the `return` inside the `select`, or by its end
(`break` or `i < maxRetries` false) with the current values of `resp` and `err`. -/
inductive LoopExit where
  | returned (e : NRPError)
  | fellThrough (resp : Option Int) (err : Option String)
  deriving DecidableEq, Repr

/-- Source lines 226-244 and 285-303 (the same loop in both clients):
`for i := 0; i < maxRetries; i++`. The first argument is `maxRetries - i`, the
number of iterations the loop condition still admits, so that the recursion is
structural; `resp` and `err` are the loop's variables. On a transport error `resp`
is read as nil. -/
def retryLoop {DTO : Type} (t : Transport DTO) (req : Request) :
    Nat → Nat → Option Int → Option String → LoopExit × List ClientEvent
  | 0, _, resp, err => (LoopExit.fellThrough resp err, [])
  | n + 1, i, _, _ =>
    match t.clientDo req i with
    | AttemptOutcome.response code =>
      (LoopExit.fellThrough (some code) none,
        [ClientEvent.attempt i (AttemptOutcome.response code)])
    | AttemptOutcome.transportError e =>
      if i < maxRetries - 1 then
        let backoff := (1 <<< i) * Second
        match t.ctxDone i with
        | some ctxErr =>
          (LoopExit.returned (NRPError.cancelledDuringRetry ctxErr),
            [ClientEvent.attempt i (AttemptOutcome.transportError e),
             ClientEvent.backoffCancelled backoff])
        | none =>
          let r := retryLoop t req n (i + 1) none (some e)
          (r.1, ClientEvent.attempt i (AttemptOutcome.transportError e)
                  :: ClientEvent.backoffElapsed backoff :: r.2)
      else
        let r := retryLoop t req n (i + 1) none (some e)
        (r.1, ClientEvent.attempt i (AttemptOutcome.transportError e) :: r.2)

/-- Source lines 245-256 and 304-315: the checks after the loop. -/
def afterLoop : LoopExit → Option NRPError
  | LoopExit.returned e => some e
  | LoopExit.fellThrough _ (some err) => some (NRPError.sendFailed err)
  | LoopExit.fellThrough none none => some NRPError.nilResponse
  | LoopExit.fellThrough (some statusCode) none =>
    if statusCode < 200 ∨ statusCode ≥ 300 then some (NRPError.nonSuccessStatus statusCode)
    else none

/-- Source lines 216-220 and 274-278: the request of a client call, once
`http.NewRequestWithContext` returned no error. -/
def postRequest (url payload : String) : Request :=
  { method := "POST", url := url, body := payload, contentType := "application/json" }

/-- Source lines 206-256 with the URL as an argument: both clients are this text
and differ in the last path segment of the URL only. -/
def sendWithRetry {DTO : Type} (t : Transport DTO) (dto : DTO) (url : String) :
    Option NRPError × List ClientEvent :=
  match t.marshal dto with
  | Except.error e => (some (NRPError.marshalFailed e), [])
  | Except.ok payload =>
    match t.newRequestErr url with
    | some e => (some (NRPError.createRequestFailed e), [])
    | none =>
      let r := retryLoop t (postRequest url payload) maxRetries 0 none none
      (afterLoop r.1, r.2)

/-- Source lines 212-213: the URL of `UpdateLocations`. -/
def locationsURL (subscriptionId resourceGroupName : String) : String :=
  "http://nrp-bypass/subscriptions/" ++ subscriptionId ++ "/resourceGroups/" ++
    resourceGroupName ++
    "/providers/Microsoft.Network/serviceGateways/ServiceGateway/UpdateLocations"

/-- Source lines 270-271: the URL of `UpdateServices`. -/
def servicesURL (subscriptionId resourceGroupName : String) : String :=
  "http://nrp-bypass/subscriptions/" ++ subscriptionId ++ "/resourceGroups/" ++
    resourceGroupName ++
    "/providers/Microsoft.Network/serviceGateways/ServiceGateway/UpdateServices"

/-- Source lines 197-257, `NRPAPIClientUpdateNRPLocations`: the returned error
(`none` is nil) and the events of the call. -/
def NRPAPIClientUpdateNRPLocations {DTO : Type} (t : Transport DTO) (locationDataRequestDTO : DTO)
    (subscriptionId resourceGroupName : String) : Option NRPError × List ClientEvent :=
  sendWithRetry t locationDataRequestDTO (locationsURL subscriptionId resourceGroupName)

/-- Source lines 259-316, `NRPAPIClientUpdateNRPServices`: the returned error
(`none` is nil) and the events of the call. -/
def NRPAPIClientUpdateNRPServices {DTO : Type} (t : Transport DTO) (createServicesRequestDTO : DTO)
    (subscriptionId resourceGroupName : String) : Option NRPError × List ClientEvent :=
  sendWithRetry t createServicesRequestDTO (servicesURL subscriptionId resourceGroupName)

/-- The attempts among the events of a call. -/
def attemptsOf (evs : List ClientEvent) : List (Nat × AttemptOutcome) :=
  evs.filterMap (fun ev => match ev with
    | ClientEvent.attempt i o => some (i, o)
    | _ => none)

/-- The backoff waits a call started, in order, elapsed or cut short. -/
def waitsStarted (evs : List ClientEvent) : List Nat :=
  evs.filterMap (fun ev => match ev with
    | ClientEvent.backoffElapsed b => some b
    | ClientEvent.backoffCancelled b => some b
    | _ => none)

/-- The total time a call spent in backoff waits that ran their full duration. -/
def totalBackoff (evs : List ClientEvent) : Nat :=
  (evs.filterMap (fun ev => match ev with
    | ClientEvent.backoffElapsed b => some b
    | _ => none)).sum

/-! ## The batch reconciler -/

/-- The type `difftracker.SyncServicesReturnType` over the set type `S` of the diff
tracker, which is declared outside this file. -/
structure SyncServicesReturnType (S : Type) where
  Additions : S
  Removals : S
  deriving DecidableEq

/-- The type `difftracker.UpdateK8sEndpointsInputType`; `none` is a nil map. -/
structure UpdateK8sEndpointsInputType where
  InboundIdentity : String
  OldAddresses : Option (GoMap String String)
  NewAddresses : Option (GoMap String String)
  deriving DecidableEq

/-- A possibly nil map where it is read: `range` and `len` take nil as empty. -/
def orEmpty (m : Option (GoMap String String)) : GoMap String String :=
  match m with
  | some x => x
  | none => GoMap.empty

/-- The collaborators of the updater that are declared outside this file, over the
types they are declared on: `D` the diff tracker, `S` its set of service names, `L`
its location data, `SDTO` and `LDTO` the two request DTOs, `E` an endpoint slice.
The updating methods of the diff tracker return its new state. `nilSet` is the nil
value of `S`, `setLen` and `unsortedList` are its methods `Len` and `UnsortedList`,
`locationsLen l` is `len(l.Locations)`, `equalFold` is `strings.EqualFold`, and
`rangeEndpointSlices added name` lists the values that the `Range` over the
endpoint-slice cache visits, in the order of the visit, when it is called for the
service `name` in the loop over the additions (`added` true) or over the removals:
a `sync.Map` fixes neither the order nor, under concurrent writes, the content from
one `Range` to the next. -/
structure Collaborators (D S L SDTO LDTO E : Type) where
  GetSyncLoadBalancerServices : D → SyncServicesReturnType S
  GetSyncLocationsAddresses : D → L
  UpdateNRPLoadBalancers : D → SyncServicesReturnType S → D
  UpdateK8sEndpoints : D → UpdateK8sEndpointsInputType → D
  UpdateLocationsAddresses : D → L → D
  nilSet : S
  setLen : S → Nat
  unsortedList : S → List String
  locationsLen : L → Nat
  MapLoadBalancerUpdatesToServicesDataDTO : SyncServicesReturnType S → String → String → SDTO
  MapLocationDataToDTO : L → LDTO
  getServiceUIDOfEndpointSlice : E → String × Bool
  getPodIPToNodeIPMapFromEndpointSlice : E → Bool → GoMap String String
  equalFold : String → String → Bool
  rangeEndpointSlices : Bool → String → List E

/-- The surroundings of the three client calls a cycle can make. -/
structure Network (SDTO LDTO : Type) where
  addServices : Transport SDTO
  updateLocations : Transport LDTO
  removeServices : Transport SDTO

/-- The part of `Cloud` the cycle reads and writes. The `sync.Map`
`localServiceNameToNRPServiceMap` is its list of keys (every value is `struct{}{}`). -/
structure Cloud (D : Type) where
  SubscriptionID : String
  ResourceGroup : String
  diffTracker : D
  localServiceNameToNRPServiceMap : List String
  deriving DecidableEq

/-- What a cycle does to the diff tracker and to the remote side, in order: the two
reads of the diff tracker, the remote calls with the DTO sent and the error
returned (`none` is nil), and the commits with their argument. -/
inductive Event (S L SDTO LDTO : Type) where
  | GetSyncLoadBalancerServices (r : SyncServicesReturnType S)
  | GetSyncLocationsAddresses (r : L)
  | NRPUpdateServices (dto : SDTO) (result : Option NRPError)
  | NRPUpdateLocations (dto : LDTO) (result : Option NRPError)
  | UpdateNRPLoadBalancers (arg : SyncServicesReturnType S)
  | UpdateK8sEndpoints (arg : UpdateK8sEndpointsInputType)
  | UpdateLocationsAddresses (arg : L)
  deriving DecidableEq

section Process

variable {D S L SDTO LDTO E : Type}

/-- The method `LoadOrStore(key, struct{}{})` on the list of keys. -/
def loadOrStore (keys : List String) (key : String) : List String :=
  if key ∈ keys then keys else keys ++ [key]

/-- Source lines 91-98: the function passed to `Range` in the loop over the added
services, as the change it makes to the input under construction when it visits
`endpointSlice`. -/
def visitAdded (c : Collaborators D S L SDTO LDTO E) (serviceName : String)
    (updateK8sEndpointsInputType : UpdateK8sEndpointsInputType) (endpointSlice : E) :
    UpdateK8sEndpointsInputType :=
  let uid := c.getServiceUIDOfEndpointSlice endpointSlice
  if uid.2 && c.equalFold uid.1 serviceName then
    { updateK8sEndpointsInputType with
      NewAddresses := some (mergeMaps [orEmpty updateK8sEndpointsInputType.NewAddresses,
        c.getPodIPToNodeIPMapFromEndpointSlice endpointSlice false]) }
  else updateK8sEndpointsInputType

/-- Source lines 112-119: the function passed to `Range` in the loop over the
removed services. -/
def visitRemoved (c : Collaborators D S L SDTO LDTO E) (serviceName : String)
    (updateK8sEndpointsInputType : UpdateK8sEndpointsInputType) (endpointSlice : E) :
    UpdateK8sEndpointsInputType :=
  let uid := c.getServiceUIDOfEndpointSlice endpointSlice
  if uid.2 && c.equalFold uid.1 serviceName then
    { updateK8sEndpointsInputType with
      OldAddresses := some (mergeMaps [orEmpty updateK8sEndpointsInputType.OldAddresses,
        c.getPodIPToNodeIPMapFromEndpointSlice endpointSlice false]) }
  else updateK8sEndpointsInputType

/-- Source lines 86-98: the input built for an added service, `NewAddresses`
starting as the empty map and growing over the `Range`. -/
def correlateAdded (c : Collaborators D S L SDTO LDTO E) (serviceName : String) :
    UpdateK8sEndpointsInputType :=
  (c.rangeEndpointSlices true serviceName).foldl (visitAdded c serviceName)
    { InboundIdentity := serviceName, OldAddresses := none, NewAddresses := some GoMap.empty }

/-- Source lines 107-119: the input built for a removed service, `OldAddresses`
starting as the empty map and growing over the `Range`. -/
def correlateRemoved (c : Collaborators D S L SDTO LDTO E) (serviceName : String) :
    UpdateK8sEndpointsInputType :=
  (c.rangeEndpointSlices false serviceName).foldl (visitRemoved c serviceName)
    { InboundIdentity := serviceName, OldAddresses := some GoMap.empty, NewAddresses := none }

/-- Source lines 55-80, "Add services": `none` when the cycle returns here. -/
def addServices (c : Collaborators D S L SDTO LDTO E) (net : Network SDTO LDTO)
    (serviceLoadBalancerList : SyncServicesReturnType S) (az : Cloud D) :
    Option (Cloud D) × List (Event S L SDTO LDTO) :=
  if c.setLen serviceLoadBalancerList.Additions > 0 then
    let arg : SyncServicesReturnType S :=
      { Additions := serviceLoadBalancerList.Additions, Removals := c.nilSet }
    let createServicesRequestDTO :=
      c.MapLoadBalancerUpdatesToServicesDataDTO arg az.SubscriptionID az.ResourceGroup
    let createServicesResponseDTO :=
      (NRPAPIClientUpdateNRPServices net.addServices createServicesRequestDTO
        az.SubscriptionID az.ResourceGroup).1
    match createServicesResponseDTO with
    | none =>
      (some { az with diffTracker := c.UpdateNRPLoadBalancers az.diffTracker arg },
        [Event.NRPUpdateServices createServicesRequestDTO none, Event.UpdateNRPLoadBalancers arg])
    | some err => (none, [Event.NRPUpdateServices createServicesRequestDTO (some err)])
  else (some az, [])

/-- Source lines 83-104: the loop over the added services. -/
def propagateAdded (c : Collaborators D S L SDTO LDTO E)
    (serviceLoadBalancerList : SyncServicesReturnType S) (az : Cloud D) :
    Cloud D × List (Event S L SDTO LDTO) :=
  (c.unsortedList serviceLoadBalancerList.Additions).foldl
    (fun acc serviceName =>
      let az1 : Cloud D := { acc.1 with
        localServiceNameToNRPServiceMap :=
          loadOrStore acc.1.localServiceNameToNRPServiceMap serviceName }
      let updateK8sEndpointsInputType := correlateAdded c serviceName
      if (orEmpty updateK8sEndpointsInputType.NewAddresses).len > 0 then
        ({ az1 with
            diffTracker := c.UpdateK8sEndpoints az1.diffTracker updateK8sEndpointsInputType },
          acc.2 ++ [Event.UpdateK8sEndpoints updateK8sEndpointsInputType])
      else (az1, acc.2))
    (az, [])

/-- Source lines 106-125: the loop over the removed services. -/
def propagateRemoved (c : Collaborators D S L SDTO LDTO E)
    (serviceLoadBalancerList : SyncServicesReturnType S) (az : Cloud D) :
    Cloud D × List (Event S L SDTO LDTO) :=
  (c.unsortedList serviceLoadBalancerList.Removals).foldl
    (fun acc serviceName =>
      let updateK8sEndpointsInputType := correlateRemoved c serviceName
      if (orEmpty updateK8sEndpointsInputType.OldAddresses).len > 0 then
        ({ acc.1 with
            diffTracker := c.UpdateK8sEndpoints acc.1.diffTracker updateK8sEndpointsInputType },
          acc.2 ++ [Event.UpdateK8sEndpoints updateK8sEndpointsInputType])
      else acc)
    (az, [])

/-- Source lines 128-145, "Update all locations and addresses": `none` when the
cycle returns here. -/
def updateLocations (c : Collaborators D S L SDTO LDTO E) (net : Network SDTO LDTO)
    (az : Cloud D) : Option (Cloud D) × List (Event S L SDTO LDTO) :=
  let locationData := c.GetSyncLocationsAddresses az.diffTracker
  if c.locationsLen locationData > 0 then
    let locationDataRequestDTO := c.MapLocationDataToDTO locationData
    let locationDataResponseDTO :=
      (NRPAPIClientUpdateNRPLocations net.updateLocations locationDataRequestDTO
        az.SubscriptionID az.ResourceGroup).1
    match locationDataResponseDTO with
    | none =>
      (some { az with diffTracker := c.UpdateLocationsAddresses az.diffTracker locationData },
        [Event.GetSyncLocationsAddresses locationData,
         Event.NRPUpdateLocations locationDataRequestDTO none,
         Event.UpdateLocationsAddresses locationData])
    | some err =>
      (none, [Event.GetSyncLocationsAddresses locationData,
        Event.NRPUpdateLocations locationDataRequestDTO (some err)])
  else (some az, [Event.GetSyncLocationsAddresses locationData])

/-- Source lines 148-172, "Remove services": `none` when the cycle returns here. -/
def removeServices (c : Collaborators D S L SDTO LDTO E) (net : Network SDTO LDTO)
    (serviceLoadBalancerList : SyncServicesReturnType S) (az : Cloud D) :
    Option (Cloud D) × List (Event S L SDTO LDTO) :=
  if c.setLen serviceLoadBalancerList.Removals > 0 then
    let arg : SyncServicesReturnType S :=
      { Additions := c.nilSet, Removals := serviceLoadBalancerList.Removals }
    let removeServicesRequestDTO :=
      c.MapLoadBalancerUpdatesToServicesDataDTO arg az.SubscriptionID az.ResourceGroup
    let removeServicesResponseDTO :=
      (NRPAPIClientUpdateNRPServices net.removeServices removeServicesRequestDTO
        az.SubscriptionID az.ResourceGroup).1
    match removeServicesResponseDTO with
    | none =>
      (some { az with diffTracker := c.UpdateNRPLoadBalancers az.diffTracker arg },
        [Event.NRPUpdateServices removeServicesRequestDTO none, Event.UpdateNRPLoadBalancers arg])
    | some err => (none, [Event.NRPUpdateServices removeServicesRequestDTO (some err)])
  else (some az, [])

/-- Source lines 43-177, `locationAndNRPServiceBatchUpdater.process`: one cycle, from
the state of `az` it starts in to the state it leaves and the events of the cycle.
The five blocks of the source run in order; a block that returns ends the cycle
with the state reached so far. Logging is left out. -/
def process (c : Collaborators D S L SDTO LDTO E) (net : Network SDTO LDTO) (az : Cloud D) :
    Cloud D × List (Event S L SDTO LDTO) :=
  let serviceLoadBalancerList := c.GetSyncLoadBalancerServices az.diffTracker
  let tr0 : List (Event S L SDTO LDTO) :=
    [Event.GetSyncLoadBalancerServices serviceLoadBalancerList]
  match addServices c net serviceLoadBalancerList az with
  | (none, tr1) => (az, tr0 ++ tr1)
  | (some az1, tr1) =>
    let r2 := propagateAdded c serviceLoadBalancerList az1
    let r3 := propagateRemoved c serviceLoadBalancerList r2.1
    match updateLocations c net r3.1 with
    | (none, tr4) => (r3.1, tr0 ++ tr1 ++ r2.2 ++ r3.2 ++ tr4)
    | (some az4, tr4) =>
      match removeServices c net serviceLoadBalancerList az4 with
      | (none, tr5) => (az4, tr0 ++ tr1 ++ r2.2 ++ r3.2 ++ tr4 ++ tr5)
      | (some az5, tr5) => (az5, tr0 ++ tr1 ++ r2.2 ++ r3.2 ++ tr4 ++ tr5)

/-- Whether an event is a remote call or a commit to the diff tracker (and not a
read of the diff tracker). -/
def Event.isOp : Event S L SDTO LDTO → Bool
  | Event.GetSyncLoadBalancerServices _ => false
  | Event.GetSyncLocationsAddresses _ => false
  | _ => true

/-- The remote calls and commits of a cycle, in order. -/
def ops (tr : List (Event S L SDTO LDTO)) : List (Event S L SDTO LDTO) :=
  tr.filter Event.isOp

/-- The error a remote call event returned, if the event is a remote call that
returned one. -/
def Event.failure : Event S L SDTO LDTO → Option NRPError
  | Event.NRPUpdateServices _ r => r
  | Event.NRPUpdateLocations _ r => r
  | _ => none

/-- Whether an event is a commit to the diff tracker. -/
def Event.isCommit : Event S L SDTO LDTO → Bool
  | Event.UpdateNRPLoadBalancers _ => true
  | Event.UpdateK8sEndpoints _ => true
  | Event.UpdateLocationsAddresses _ => true
  | _ => false

/-- The diff tracker after the commits among the events are applied to it in order. -/
def replayCommits (c : Collaborators D S L SDTO LDTO E) (d : D)
    (tr : List (Event S L SDTO LDTO)) : D :=
  tr.foldl (fun d ev => match ev with
    | Event.UpdateNRPLoadBalancers arg => c.UpdateNRPLoadBalancers d arg
    | Event.UpdateK8sEndpoints arg => c.UpdateK8sEndpoints d arg
    | Event.UpdateLocationsAddresses arg => c.UpdateLocationsAddresses d arg
    | _ => d) d

/-- The arguments of the `UpdateK8sEndpoints` commits among the events, in order. -/
def k8sCommits (tr : List (Event S L SDTO LDTO)) : List UpdateK8sEndpointsInputType :=
  tr.filterMap (fun ev => match ev with
    | Event.UpdateK8sEndpoints arg => some arg
    | _ => none)

/-- Whether the `Range` function merges the map of `endpointSlice` for the service
`serviceName`: the slice has an owning service and `strings.EqualFold` holds of its
UID and the name. -/
def matchesService (c : Collaborators D S L SDTO LDTO E) (serviceName : String)
    (endpointSlice : E) : Bool :=
  (c.getServiceUIDOfEndpointSlice endpointSlice).2 &&
    c.equalFold (c.getServiceUIDOfEndpointSlice endpointSlice).1 serviceName

/-- The pod-address to node-address maps of the endpoint slices that match
`serviceName`, in the order the `Range` of the given loop visits them. -/
def matchingMaps (c : Collaborators D S L SDTO LDTO E) (added : Bool) (serviceName : String) :
    List (GoMap String String) :=
  ((c.rangeEndpointSlices added serviceName).filter (matchesService c serviceName)).map
    (fun endpointSlice => c.getPodIPToNodeIPMapFromEndpointSlice endpointSlice false)

/-- The fold `acc := mergeMaps(acc, next)` over a list of maps, from the empty map. -/
def foldMerge (maps : List (GoMap String String)) : GoMap String String :=
  maps.foldl (fun acc next => mergeMaps [acc, next]) GoMap.empty

/-- The argument of the add-services call and of its commit: the additions only. -/
def addArg (c : Collaborators D S L SDTO LDTO E) (sl : SyncServicesReturnType S) :
    SyncServicesReturnType S :=
  { Additions := sl.Additions, Removals := c.nilSet }

/-- The argument of the remove-services call and of its commit: the removals only. -/
def removeArg (c : Collaborators D S L SDTO LDTO E) (sl : SyncServicesReturnType S) :
    SyncServicesReturnType S :=
  { Additions := c.nilSet, Removals := sl.Removals }

/-- The deltas of the added services whose merged map is not empty, in loop order. -/
def addedDeltas (c : Collaborators D S L SDTO LDTO E) (sl : SyncServicesReturnType S) :
    List UpdateK8sEndpointsInputType :=
  (c.unsortedList sl.Additions).filterMap (fun serviceName =>
    if (foldMerge (matchingMaps c true serviceName)).len > 0 then
      some { InboundIdentity := serviceName, OldAddresses := none,
             NewAddresses := some (foldMerge (matchingMaps c true serviceName)) }
    else none)

/-- The deltas of the removed services whose merged map is not empty, in loop order. -/
def removedDeltas (c : Collaborators D S L SDTO LDTO E) (sl : SyncServicesReturnType S) :
    List UpdateK8sEndpointsInputType :=
  (c.unsortedList sl.Removals).filterMap (fun serviceName =>
    if (foldMerge (matchingMaps c false serviceName)).len > 0 then
      some { InboundIdentity := serviceName,
             OldAddresses := some (foldMerge (matchingMaps c false serviceName)),
             NewAddresses := none }
    else none)

/-- Whether an event is a commit that acknowledges a remote call: the commit of
services or of locations (a delta of endpoints rides with the later location sync
and acknowledges no call). -/
def Event.acknowledges : Event S L SDTO LDTO → Bool
  | Event.UpdateNRPLoadBalancers _ => true
  | Event.UpdateLocationsAddresses _ => true
  | _ => false

/-- What holds of two consecutive events `x`, `y` of a cycle run under the
subscription `sub` and the resource group `rg`: `x` is not a failed remote call,
and when `y` is a commit of services or of locations, `x` is the remote call that
sent the committed data and returned nil. -/
def Follows (c : Collaborators D S L SDTO LDTO E) (sub rg : String)
    (x y : Event S L SDTO LDTO) : Prop :=
  x.failure = none ∧
  (∀ arg, y = Event.UpdateNRPLoadBalancers arg →
    x = Event.NRPUpdateServices (c.MapLoadBalancerUpdatesToServicesDataDTO arg sub rg) none) ∧
  (∀ l, y = Event.UpdateLocationsAddresses l →
    x = Event.NRPUpdateLocations (c.MapLocationDataToDTO l) none)

/-- Whether an event is a read of location data that holds no location. -/
def Event.readsNoLocation (c : Collaborators D S L SDTO LDTO E) : Event S L SDTO LDTO → Bool
  | Event.GetSyncLocationsAddresses l => decide (c.locationsLen l = 0)
  | _ => false

/-- A stretch of events in which consecutive events are related by `Follows` and
which does not start with an acknowledging commit. -/
def Ordered (c : Collaborators D S L SDTO LDTO E) (sub rg : String)
    (tr : List (Event S L SDTO LDTO)) : Prop :=
  List.Chain' (Follows c sub rg) tr ∧ ∀ y ∈ tr.head?, y.acknowledges = false

/-- A stretch of events without failed remote call. -/
def Clean (tr : List (Event S L SDTO LDTO)) : Prop :=
  ∀ x ∈ tr, x.failure = none

end Process

/-! ## Sample surroundings -/

/-- A transport on which serialization and request construction succeed, every
attempt fails at transport level and the context is never done. -/
def refusingTransport {DTO : Type} : Transport DTO :=
  { marshal := fun _ => Except.ok "null"
    newRequestErr := fun _ => none
    clientDo := fun _ _ => AttemptOutcome.transportError "connection refused"
    ctxDone := fun _ => none }

/-- A transport on which attempts 1 and 2 fail at transport level, attempt 3
obtains status 200, and the context is never done. -/
def recoveringTransport {DTO : Type} : Transport DTO :=
  { marshal := fun _ => Except.ok "null"
    newRequestErr := fun _ => none
    clientDo := fun _ i =>
      if i < 2 then AttemptOutcome.transportError "connection refused"
      else AttemptOutcome.response 200
    ctxDone := fun _ => none }

/-- A transport on which the first attempt fails at transport level, the context is
done during the first backoff wait, and a second attempt would obtain status 200. -/
def cancelledTransport {DTO : Type} : Transport DTO :=
  { marshal := fun _ => Except.ok "null"
    newRequestErr := fun _ => none
    clientDo := fun _ i =>
      if i < 1 then AttemptOutcome.transportError "connection refused"
      else AttemptOutcome.response 200
    ctxDone := fun _ => some "context canceled" }

/-- A transport on which the first attempt obtains status 503 and a second attempt
would obtain status 200. -/
def rejectingTransport {DTO : Type} : Transport DTO :=
  { marshal := fun _ => Except.ok "null"
    newRequestErr := fun _ => none
    clientDo := fun _ i =>
      if i < 1 then AttemptOutcome.response 503 else AttemptOutcome.response 200
    ctxDone := fun _ => none }

/-- A transport on which the first attempt obtains status 200. -/
def acceptingTransport {DTO : Type} : Transport DTO :=
  { marshal := fun _ => Except.ok "null"
    newRequestErr := fun _ => none
    clientDo := fun _ _ => AttemptOutcome.response 200
    ctxDone := fun _ => none }

/-- A small diff tracker: the services still to add and to remove, and the
addresses still to send. -/
structure SampleTracker where
  additions : List String
  removals : List String
  locations : List String
  deriving DecidableEq

/-- An endpoint slice reduced to what the updater reads of it: the UID of the owning
service, if the slice has one, and its pod-address to node-address map. -/
structure SampleSlice where
  owner : Option String
  addresses : GoMap String String

/-- For the samples, `strings.EqualFold` on ASCII strings: equality after
lower-casing the letters `A` to `Z`. -/
def asciiEqualFold (a b : String) : Bool :=
  decide (a.data.map Char.toLower = b.data.map Char.toLower)

/-- The slices of the sample cache: one owned by `SVC-A` (upper case), one by
`svc-a` that holds the same pod address with another node address, one by `svc-b`,
and one without owner. -/
def sampleSlices : List SampleSlice :=
  [ { owner := some "SVC-A", addresses := GoMap.empty.set "10.0.0.1" "node-1" },
    { owner := some "svc-a",
      addresses := (GoMap.empty.set "10.0.0.1" "node-2").set "10.0.0.2" "node-3" },
    { owner := some "svc-b", addresses := GoMap.empty.set "10.0.0.9" "node-9" },
    { owner := none, addresses := GoMap.empty.set "10.0.0.7" "node-7" } ]

/-- The collaborators of the samples. Committing the services drops them from the
pending ones, committing a delta queues its node addresses as locations, and
committing the locations empties the queue. -/
def sampleCollaborators :
    Collaborators SampleTracker (List String) (List String) (List String × List String)
      (List String) SampleSlice :=
  { GetSyncLoadBalancerServices := fun d => { Additions := d.additions, Removals := d.removals }
    GetSyncLocationsAddresses := fun d => d.locations
    UpdateNRPLoadBalancers := fun d arg =>
      { d with
        additions := d.additions.filter (fun x => decide (x ∉ arg.Additions))
        removals := d.removals.filter (fun x => decide (x ∉ arg.Removals)) }
    UpdateK8sEndpoints := fun d arg =>
      { d with
        locations := d.locations ++ (orEmpty arg.NewAddresses).entries.map Prod.snd ++
          (orEmpty arg.OldAddresses).entries.map Prod.snd }
    UpdateLocationsAddresses := fun d _ => { d with locations := [] }
    nilSet := []
    setLen := List.length
    unsortedList := fun x => x
    locationsLen := List.length
    MapLoadBalancerUpdatesToServicesDataDTO := fun arg _ _ => (arg.Additions, arg.Removals)
    MapLocationDataToDTO := fun l => l
    getServiceUIDOfEndpointSlice := fun e =>
      match e.owner with
      | some uid => (uid, true)
      | none => ("", false)
    getPodIPToNodeIPMapFromEndpointSlice := fun e _ => e.addresses
    equalFold := asciiEqualFold
    rangeEndpointSlices := fun _ _ => sampleSlices }

/-- A network on which every call succeeds at its first attempt. -/
def acceptingNetwork : Network (List String × List String) (List String) :=
  { addServices := acceptingTransport
    updateLocations := acceptingTransport
    removeServices := acceptingTransport }

/-- A network on which the add-services call is refused at every attempt. -/
def refusingNetwork : Network (List String × List String) (List String) :=
  { addServices := refusingTransport
    updateLocations := acceptingTransport
    removeServices := acceptingTransport }

/-- The state a sample cycle starts in: `svc-a` to add, `svc-b` to remove. -/
def sampleCloud : Cloud SampleTracker :=
  { SubscriptionID := "sub"
    ResourceGroup := "rg"
    diffTracker := { additions := ["svc-a"], removals := ["svc-b"], locations := [] }
    localServiceNameToNRPServiceMap := [] }

/-! ## Merging maps -/

namespace GoMap

variable {K V : Type} [DecidableEq K]

theorem get?_empty (k : K) : (GoMap.empty : GoMap K V).get? k = none := rfl

@[simp] theorem overwrite_some (v : V) (before : Option V) :
    overwrite (some v) before = some v := rfl

@[simp] theorem overwrite_none (before : Option V) : overwrite none before = before := rfl

theorem get?_set_self (m : GoMap K V) (k : K) (v : V) : (m.set k v).get? k = some v := by
  simp [GoMap.get?, GoMap.set]

theorem get?_set_of_ne (m : GoMap K V) (k k2 : K) (v : V) (h : k ≠ k2) :
    (m.set k v).get? k2 = m.get? k2 := by
  unfold GoMap.get? GoMap.set
  simp only [List.find?_cons, h, decide_False]
  congr 1
  have : ∀ l : List (K × V),
      (l.filter (fun e => decide (e.1 ≠ k))).find? (fun e => decide (e.1 = k2)) =
        l.find? (fun e => decide (e.1 = k2)) := by
    intro l
    induction l with
    | nil => rfl
    | cons e l ih =>
      by_cases hek : e.1 = k
      · have hek2 : e.1 ≠ k2 := by rw [hek]; exact h
        simp [List.filter_cons, List.find?_cons, hek, hek2, h]
        simpa using ih
      · by_cases hek2 : e.1 = k2
        · have hk2 : ¬ k2 = k := fun x => h x.symm
          subst hek2
          simp [List.filter_cons, List.find?_cons, hek]
        · simp [List.filter_cons, List.find?_cons, hek, hek2]
          simpa using ih
  exact this m.entries

/-- Assigning the entries of a list without repeated keys, in order, to `r`: a key of
the list gets the value the list holds for it, any other key keeps its value. -/
theorem get?_foldl_set (l : List (K × V)) (hl : (l.map Prod.fst).Nodup) (r : GoMap K V)
    (k : K) :
    (l.foldl (fun r e => r.set e.1 e.2) r).get? k =
      overwrite ((l.find? (fun e => decide (e.1 = k))).map Prod.snd) (r.get? k) := by
  induction l generalizing r with
  | nil => rfl
  | cons e l ih =>
    rw [List.map_cons, List.nodup_cons] at hl
    rw [List.foldl_cons, ih hl.2]
    by_cases hek : e.1 = k
    · have hnot : l.find? (fun e => decide (e.1 = k)) = none := by
        rw [List.find?_eq_none]
        intro x hx hxk
        apply hl.1
        rw [hek]
        exact List.mem_map.2 ⟨x, hx, by simpa using hxk⟩
      subst hek
      simp [List.find?_cons, hnot, get?_set_self]
    · simp only [List.find?_cons, hek, decide_False]
      cases (l.find? (fun e => decide (e.1 = k))).map Prod.snd with
      | some v => rfl
      | none => exact get?_set_of_ne r e.1 k e.2 hek

end GoMap

/-- One merge step: the entries of `next` assigned into `acc`. -/
theorem get?_assign {K V : Type} [DecidableEq K] (acc next : GoMap K V) (k : K) :
    (next.entries.foldl (fun r e => r.set e.1 e.2) acc).get? k =
      GoMap.overwrite (next.get? k) (acc.get? k) :=
  GoMap.get?_foldl_set next.entries next.nodupKeys acc k

/-- The call `mergeMaps(acc, next)`: the value of `next` where it has the key,
that of `acc` elsewhere. -/
theorem get?_mergeMaps_pair {K V : Type} [DecidableEq K] (acc next : GoMap K V) (k : K) :
    (mergeMaps [acc, next]).get? k = GoMap.overwrite (next.get? k) (acc.get? k) := by
  unfold mergeMaps
  rw [List.foldl_cons, List.foldl_cons, List.foldl_nil, get?_assign, get?_assign]
  cases next.get? k with
  | some v => rfl
  | none =>
    cases acc.get? k with
    | some v => rfl
    | none => rfl

section LastWriteWins

variable {K V : Type} [DecidableEq K] (G : GoMap K V → GoMap K V → GoMap K V)
  (hG : ∀ acc next k, (G acc next).get? k = GoMap.overwrite (next.get? k) (acc.get? k))

include hG

theorem foldl_lww_none (ms : List (GoMap K V)) (acc : GoMap K V) (k : K)
    (h : ∀ m ∈ ms, m.get? k = none) : (ms.foldl G acc).get? k = acc.get? k := by
  induction ms generalizing acc with
  | nil => rfl
  | cons m ms ih =>
    rw [List.foldl_cons, ih _ (fun x hx => h x (List.mem_cons_of_mem _ hx)), hG,
      h m (List.mem_cons_self _ _)]
    rfl

theorem foldl_lww_last (ms : List (GoMap K V)) (acc : GoMap K V) (k : K) (i : Nat)
    (m : GoMap K V) (hi : ms[i]? = some m) (hv : m.contains k = true)
    (hlast : ∀ j m2, i < j → ms[j]? = some m2 → m2.contains k = false) :
    (ms.foldl G acc).get? k = m.get? k := by
  induction ms generalizing acc i with
  | nil => simp at hi
  | cons m0 ms ih =>
    rw [List.foldl_cons]
    cases i with
    | zero =>
      simp at hi
      subst hi
      rw [foldl_lww_none G hG ms _ k, hG]
      · unfold GoMap.contains at hv
        cases hm : m0.get? k with
        | some v => rfl
        | none => rw [hm] at hv; simp at hv
      · intro x hx
        obtain ⟨j, hj⟩ := List.getElem?_of_mem hx
        have := hlast (j + 1) x (by omega) (by simpa using hj)
        unfold GoMap.contains at this
        simpa using this
    | succ i =>
      exact ih _ i (by simpa using hi)
        (fun j m2 hij hj => hlast (j + 1) m2 (by omega) (by simpa using hj))

theorem foldl_lww_contains (ms : List (GoMap K V)) (acc : GoMap K V) (k : K) :
    (ms.foldl G acc).contains k = true ↔
      acc.contains k = true ∨ ∃ m ∈ ms, m.contains k = true := by
  induction ms generalizing acc with
  | nil => simp
  | cons m ms ih =>
    rw [List.foldl_cons, ih]
    have hstep : (G acc m).contains k = true ↔
        acc.contains k = true ∨ m.contains k = true := by
      unfold GoMap.contains
      rw [hG]
      cases m.get? k with
      | some v => simp
      | none => simp
    rw [hstep]
    simp only [List.mem_cons, exists_eq_or_imp]
    tauto

end LastWriteWins

section Correlation

variable {D S L SDTO LDTO E : Type}

theorem foldl_visitAdded (c : Collaborators D S L SDTO LDTO E) (s : String) (l : List E)
    (a : GoMap String String) :
    l.foldl (visitAdded c s)
        { InboundIdentity := s, OldAddresses := none, NewAddresses := some a } =
      { InboundIdentity := s, OldAddresses := none,
        NewAddresses := some
          (((l.filter (matchesService c s)).map
              (fun endpointSlice => c.getPodIPToNodeIPMapFromEndpointSlice endpointSlice false)).foldl
            (fun acc next => mergeMaps [acc, next]) a) } := by
  induction l generalizing a with
  | nil => rfl
  | cons r l ih =>
    rw [List.foldl_cons]
    by_cases h : matchesService c s r = true
    · have h2 := h
      unfold matchesService at h2
      simp only [visitAdded, h2, if_true, orEmpty, List.filter_cons, h, List.map_cons,
        List.foldl_cons]
      exact ih _
    · have h2 := h
      unfold matchesService at h2
      simp only [visitAdded, h2, List.filter_cons, h]
      exact ih _

theorem foldl_visitRemoved (c : Collaborators D S L SDTO LDTO E) (s : String) (l : List E)
    (a : GoMap String String) :
    l.foldl (visitRemoved c s)
        { InboundIdentity := s, OldAddresses := some a, NewAddresses := none } =
      { InboundIdentity := s,
        OldAddresses := some
          (((l.filter (matchesService c s)).map
              (fun endpointSlice => c.getPodIPToNodeIPMapFromEndpointSlice endpointSlice false)).foldl
            (fun acc next => mergeMaps [acc, next]) a),
        NewAddresses := none } := by
  induction l generalizing a with
  | nil => rfl
  | cons r l ih =>
    rw [List.foldl_cons]
    by_cases h : matchesService c s r = true
    · have h2 := h
      unfold matchesService at h2
      simp only [visitRemoved, h2, if_true, orEmpty, List.filter_cons, h, List.map_cons,
        List.foldl_cons]
      exact ih _
    · have h2 := h
      unfold matchesService at h2
      simp only [visitRemoved, h2, List.filter_cons, h]
      exact ih _

/-- The input built for an added service: its name, no old addresses, and as new
addresses the fold of `mergeMaps` over the maps of the matching slices. -/
theorem correlateAdded_eq (c : Collaborators D S L SDTO LDTO E) (s : String) :
    correlateAdded c s =
      { InboundIdentity := s, OldAddresses := none,
        NewAddresses := some (foldMerge (matchingMaps c true s)) } :=
  foldl_visitAdded c s _ _

/-- The input built for a removed service: its name, as old addresses the fold of
`mergeMaps` over the maps of the matching slices, and no new addresses. -/
theorem correlateRemoved_eq (c : Collaborators D S L SDTO LDTO E) (s : String) :
    correlateRemoved c s =
      { InboundIdentity := s,
        OldAddresses := some (foldMerge (matchingMaps c false s)),
        NewAddresses := none } :=
  foldl_visitRemoved c s _ _

end Correlation

/-- C5: `mergeMaps` is last-write-wins. A key is in the result exactly when it is in
one of the arguments, and its value is then that of the argument of largest index
that has the key. The correlator builds the fold `acc := mergeMaps(acc, next)` over
the maps of the matching endpoint slices in the order of the `Range`, for which the
same holds; so of two slices that hold the same pod address, the one merged later
gives the node address, whichever of the two that is. -/
theorem mergeMaps_last_write_wins {K V : Type} [DecidableEq K] (ms : List (GoMap K V)) (k : K) :
    ((mergeMaps ms).contains k = true ↔ ∃ m ∈ ms, m.contains k = true) ∧
    (∀ (i : Nat) (m : GoMap K V), ms[i]? = some m → m.contains k = true →
      (∀ (j : Nat) (m2 : GoMap K V), i < j → ms[j]? = some m2 → m2.contains k = false) →
      (mergeMaps ms).get? k = m.get? k) ∧
    (∀ (D S L SDTO LDTO E : Type) (c : Collaborators D S L SDTO LDTO E) (s : String),
      (correlateAdded c s).NewAddresses = some (foldMerge (matchingMaps c true s)) ∧
      (correlateRemoved c s).OldAddresses = some (foldMerge (matchingMaps c false s))) ∧
    (∀ (maps : List (GoMap String String)) (p : String),
      ((foldMerge maps).contains p = true ↔ ∃ m ∈ maps, m.contains p = true) ∧
      (∀ (i : Nat) (m : GoMap String String), maps[i]? = some m → m.contains p = true →
        (∀ (j : Nat) (m2 : GoMap String String), i < j → maps[j]? = some m2 →
          m2.contains p = false) →
        (foldMerge maps).get? p = m.get? p)) ∧
    (∀ (m1 m2 : GoMap String String) (p n1 n2 : String),
      m1.get? p = some n1 → m2.get? p = some n2 →
      (foldMerge [m1, m2]).get? p = some n2 ∧ (foldMerge [m2, m1]).get? p = some n1) := by
  refine ⟨?_, ?_, ?_, ?_, ?_⟩
  · have h := foldl_lww_contains
      (fun (result m : GoMap K V) => m.entries.foldl (fun r e => r.set e.1 e.2) result)
      get?_assign ms GoMap.empty k
    simpa [mergeMaps, GoMap.contains, GoMap.get?_empty] using h
  · intro i m hi hv hlast
    exact foldl_lww_last
      (fun (result m : GoMap K V) => m.entries.foldl (fun r e => r.set e.1 e.2) result)
      get?_assign ms GoMap.empty k i m hi hv hlast
  · intro D S L SDTO LDTO E c s
    rw [correlateAdded_eq, correlateRemoved_eq]
    exact ⟨rfl, rfl⟩
  · intro maps p
    refine ⟨?_, ?_⟩
    · have h := foldl_lww_contains (fun (acc next : GoMap String String) => mergeMaps [acc, next])
        get?_mergeMaps_pair maps GoMap.empty p
      simpa [foldMerge, GoMap.contains, GoMap.get?_empty] using h
    · intro i m hi hv hlast
      exact foldl_lww_last (fun (acc next : GoMap String String) => mergeMaps [acc, next])
        get?_mergeMaps_pair maps GoMap.empty p i m hi hv hlast
  · intro m1 m2 p n1 n2 h1 h2
    simp [foldMerge, get?_mergeMaps_pair, h1, h2]

/-! ## The retry loop -/

/-- The shape of a call: the result and the events are fixed by the outcomes the
transport yields, one case per way through the loop. -/
theorem sendWithRetry_cases {DTO : Type} (t : Transport DTO) (dto : DTO) (url : String) :
    (∃ e, t.marshal dto = Except.error e ∧
      sendWithRetry t dto url = (some (NRPError.marshalFailed e), [])) ∨
    (∃ payload e, t.marshal dto = Except.ok payload ∧ t.newRequestErr url = some e ∧
      sendWithRetry t dto url = (some (NRPError.createRequestFailed e), [])) ∨
    (∃ payload c, t.marshal dto = Except.ok payload ∧ t.newRequestErr url = none ∧
      t.clientDo (postRequest url payload) 0 = AttemptOutcome.response c ∧
      sendWithRetry t dto url =
        (afterLoop (LoopExit.fellThrough (some c) none),
          [ClientEvent.attempt 0 (AttemptOutcome.response c)])) ∨
    (∃ payload e0 x, t.marshal dto = Except.ok payload ∧ t.newRequestErr url = none ∧
      t.clientDo (postRequest url payload) 0 = AttemptOutcome.transportError e0 ∧
      t.ctxDone 0 = some x ∧
      sendWithRetry t dto url =
        (some (NRPError.cancelledDuringRetry x),
          [ClientEvent.attempt 0 (AttemptOutcome.transportError e0),
           ClientEvent.backoffCancelled Second])) ∨
    (∃ payload e0 c, t.marshal dto = Except.ok payload ∧ t.newRequestErr url = none ∧
      t.clientDo (postRequest url payload) 0 = AttemptOutcome.transportError e0 ∧
      t.ctxDone 0 = none ∧
      t.clientDo (postRequest url payload) 1 = AttemptOutcome.response c ∧
      sendWithRetry t dto url =
        (afterLoop (LoopExit.fellThrough (some c) none),
          [ClientEvent.attempt 0 (AttemptOutcome.transportError e0),
           ClientEvent.backoffElapsed Second,
           ClientEvent.attempt 1 (AttemptOutcome.response c)])) ∨
    (∃ payload e0 e1 x, t.marshal dto = Except.ok payload ∧ t.newRequestErr url = none ∧
      t.clientDo (postRequest url payload) 0 = AttemptOutcome.transportError e0 ∧
      t.ctxDone 0 = none ∧
      t.clientDo (postRequest url payload) 1 = AttemptOutcome.transportError e1 ∧
      t.ctxDone 1 = some x ∧
      sendWithRetry t dto url =
        (some (NRPError.cancelledDuringRetry x),
          [ClientEvent.attempt 0 (AttemptOutcome.transportError e0),
           ClientEvent.backoffElapsed Second,
           ClientEvent.attempt 1 (AttemptOutcome.transportError e1),
           ClientEvent.backoffCancelled (2 * Second)])) ∨
    (∃ payload e0 e1 c, t.marshal dto = Except.ok payload ∧ t.newRequestErr url = none ∧
      t.clientDo (postRequest url payload) 0 = AttemptOutcome.transportError e0 ∧
      t.ctxDone 0 = none ∧
      t.clientDo (postRequest url payload) 1 = AttemptOutcome.transportError e1 ∧
      t.ctxDone 1 = none ∧
      t.clientDo (postRequest url payload) 2 = AttemptOutcome.response c ∧
      sendWithRetry t dto url =
        (afterLoop (LoopExit.fellThrough (some c) none),
          [ClientEvent.attempt 0 (AttemptOutcome.transportError e0),
           ClientEvent.backoffElapsed Second,
           ClientEvent.attempt 1 (AttemptOutcome.transportError e1),
           ClientEvent.backoffElapsed (2 * Second),
           ClientEvent.attempt 2 (AttemptOutcome.response c)])) ∨
    (∃ payload e0 e1 e2, t.marshal dto = Except.ok payload ∧ t.newRequestErr url = none ∧
      t.clientDo (postRequest url payload) 0 = AttemptOutcome.transportError e0 ∧
      t.ctxDone 0 = none ∧
      t.clientDo (postRequest url payload) 1 = AttemptOutcome.transportError e1 ∧
      t.ctxDone 1 = none ∧
      t.clientDo (postRequest url payload) 2 = AttemptOutcome.transportError e2 ∧
      sendWithRetry t dto url =
        (some (NRPError.sendFailed e2),
          [ClientEvent.attempt 0 (AttemptOutcome.transportError e0),
           ClientEvent.backoffElapsed Second,
           ClientEvent.attempt 1 (AttemptOutcome.transportError e1),
           ClientEvent.backoffElapsed (2 * Second),
           ClientEvent.attempt 2 (AttemptOutcome.transportError e2)])) := by
  unfold sendWithRetry
  cases hm : t.marshal dto with
  | error e => exact Or.inl ⟨e, rfl, rfl⟩
  | ok payload =>
    cases hr : t.newRequestErr url with
    | some e => exact Or.inr (Or.inl ⟨payload, e, rfl, rfl, rfl⟩)
    | none =>
      cases h0 : t.clientDo (postRequest url payload) 0 with
      | response c => simp [maxRetries, retryLoop, h0]
      | transportError e0 =>
        cases hc0 : t.ctxDone 0 with
        | some x => simp [maxRetries, retryLoop, h0, hc0, afterLoop]
        | none =>
          cases h1 : t.clientDo (postRequest url payload) 1 with
          | response c => simp [maxRetries, retryLoop, h0, hc0, h1]
          | transportError e1 =>
            cases hc1 : t.ctxDone 1 with
            | some x => simp [maxRetries, retryLoop, h0, hc0, h1, hc1, afterLoop]
            | none =>
              cases h2 : t.clientDo (postRequest url payload) 2 with
              | response c => simp [maxRetries, retryLoop, h0, hc0, h1, hc1, h2]
              | transportError e2 =>
                simp [maxRetries, retryLoop, h0, hc0, h1, hc1, h2, afterLoop]

/-- C7: for both clients, when serialization and request construction succeed, no
cancellation is taken, the transport fails on attempts 1 and 2 and attempt 3 obtains
a response with status in 200..299, the call returns nil, as a call whose first
attempt obtains that response does, it makes exactly the three attempts, and the
backoff it waits is 1s + 2s. No call makes more than 3 attempts, and a call whose
3 attempts all fail at transport level returns a non-nil error. -/
theorem retry_third_attempt_succeeds {DTO : Type}
    (call : Transport DTO → DTO → String → String → Option NRPError × List ClientEvent)
    (url : String → String → String)
    (hcall : (call = NRPAPIClientUpdateNRPServices ∧ url = servicesURL) ∨
      (call = NRPAPIClientUpdateNRPLocations ∧ url = locationsURL))
    (t : Transport DTO) (dto : DTO) (sub rg : String) :
    (∀ payload e1 e2 code,
      t.marshal dto = Except.ok payload → t.newRequestErr (url sub rg) = none →
      (∀ i, t.ctxDone i = none) →
      t.clientDo (postRequest (url sub rg) payload) 0 = AttemptOutcome.transportError e1 →
      t.clientDo (postRequest (url sub rg) payload) 1 = AttemptOutcome.transportError e2 →
      t.clientDo (postRequest (url sub rg) payload) 2 = AttemptOutcome.response code →
      200 ≤ code → code ≤ 299 →
      (call t dto sub rg).1 = none ∧
      attemptsOf (call t dto sub rg).2 =
        [(0, AttemptOutcome.transportError e1), (1, AttemptOutcome.transportError e2),
         (2, AttemptOutcome.response code)] ∧
      totalBackoff (call t dto sub rg).2 = 1 * Second + 2 * Second ∧
      (call t dto sub rg).1 =
        (call { t with clientDo := fun _ _ => AttemptOutcome.response code } dto sub rg).1) ∧
    (attemptsOf (call t dto sub rg).2).length ≤ 3 ∧
    ((∀ payload, t.marshal dto = Except.ok payload →
        ∀ i, i < 3 → ∃ e, t.clientDo (postRequest (url sub rg) payload) i =
          AttemptOutcome.transportError e) →
      (call t dto sub rg).1 ≠ none) := by
  have key : ∀ u : String,
      (∀ payload e1 e2 code,
        t.marshal dto = Except.ok payload → t.newRequestErr u = none →
        (∀ i, t.ctxDone i = none) →
        t.clientDo (postRequest u payload) 0 = AttemptOutcome.transportError e1 →
        t.clientDo (postRequest u payload) 1 = AttemptOutcome.transportError e2 →
        t.clientDo (postRequest u payload) 2 = AttemptOutcome.response code →
        200 ≤ code → code ≤ 299 →
        (sendWithRetry t dto u).1 = none ∧
        attemptsOf (sendWithRetry t dto u).2 =
          [(0, AttemptOutcome.transportError e1), (1, AttemptOutcome.transportError e2),
           (2, AttemptOutcome.response code)] ∧
        totalBackoff (sendWithRetry t dto u).2 = 1 * Second + 2 * Second ∧
        (sendWithRetry t dto u).1 =
          (sendWithRetry { t with clientDo := fun _ _ => AttemptOutcome.response code }
            dto u).1) ∧
      (attemptsOf (sendWithRetry t dto u).2).length ≤ 3 ∧
      ((∀ payload, t.marshal dto = Except.ok payload →
          ∀ i, i < 3 → ∃ e, t.clientDo (postRequest u payload) i =
            AttemptOutcome.transportError e) →
        (sendWithRetry t dto u).1 ≠ none) := by
    intro u
    refine ⟨?_, ?_, ?_⟩
    · intro payload e1 e2 code hm hr hc h0 h1 h2 hlo hhi
      have hok : ¬ (code < 200 ∨ code ≥ 300) := by omega
      have h3 : sendWithRetry t dto u =
          (none, [ClientEvent.attempt 0 (AttemptOutcome.transportError e1),
            ClientEvent.backoffElapsed Second,
            ClientEvent.attempt 1 (AttemptOutcome.transportError e2),
            ClientEvent.backoffElapsed (2 * Second),
            ClientEvent.attempt 2 (AttemptOutcome.response code)]) := by
        simp [sendWithRetry, hm, hr, maxRetries, retryLoop, h0, h1, h2, hc, afterLoop, hok]
      have h4 : (sendWithRetry { t with clientDo := fun _ _ => AttemptOutcome.response code }
          dto u).1 = none := by
        simp [sendWithRetry, hm, hr, maxRetries, retryLoop, afterLoop, hok]
      rw [h3, h4]
      simp [attemptsOf, totalBackoff]
    · rcases sendWithRetry_cases t dto u with h | h | h | h | h | h | h | h
      all_goals
        repeat (obtain ⟨_, h⟩ := h)
        rw [h]
        simp [attemptsOf]
    · intro hall
      rcases sendWithRetry_cases t dto u with h | h | h | h | h | h | h | h
      · obtain ⟨_, _, h⟩ := h; rw [h]; simp
      · obtain ⟨_, _, _, _, h⟩ := h; rw [h]; simp
      · obtain ⟨p, c, hm, _, h0, _⟩ := h
        obtain ⟨e, he⟩ := hall p hm 0 (by omega)
        rw [h0] at he; cases he
      · obtain ⟨_, _, _, _, _, _, _, h⟩ := h; rw [h]; simp
      · obtain ⟨p, _, c, hm, _, _, _, h1, _⟩ := h
        obtain ⟨e, he⟩ := hall p hm 1 (by omega)
        rw [h1] at he; cases he
      · obtain ⟨_, _, _, _, _, _, _, _, _, _, h⟩ := h; rw [h]; simp
      · obtain ⟨p, _, _, c, hm, _, _, _, _, _, h2, _⟩ := h
        obtain ⟨e, he⟩ := hall p hm 2 (by omega)
        rw [h2] at he; cases he
      · obtain ⟨_, _, _, _, _, _, _, _, _, _, _, h⟩ := h; rw [h]; simp
  rcases hcall with ⟨hc, hu⟩ | ⟨hc, hu⟩
  · subst hc; subst hu
    exact key (servicesURL sub rg)
  · subst hc; subst hu
    exact key (locationsURL sub rg)

/-- The waits of a call: with `w` standing for a started wait, the events of a call
are a prefix-closed shape of attempt, 1s, attempt, 2s, attempt. The lemma lists,
for any call, what follows each failed attempt. -/
theorem sendWithRetry_waits {DTO : Type} (t : Transport DTO) (dto : DTO) (u : String) :
    (∃ rest, waitsStarted (sendWithRetry t dto u).2 ++ rest = [Second, 2 * Second]) ∧
    (∀ i e, ClientEvent.attempt i (AttemptOutcome.transportError e) ∈ (sendWithRetry t dto u).2 →
      (i < 2 ∧ ∃ pre post w,
        (sendWithRetry t dto u).2 =
          pre ++ ClientEvent.attempt i (AttemptOutcome.transportError e) :: w :: post ∧
        (w = ClientEvent.backoffElapsed (2 ^ i * Second) ∨
          w = ClientEvent.backoffCancelled (2 ^ i * Second))) ∨
      (i = 2 ∧ ∃ pre,
        (sendWithRetry t dto u).2 =
          pre ++ [ClientEvent.attempt 2 (AttemptOutcome.transportError e)])) := by
  rcases sendWithRetry_cases t dto u with h | h | h | h | h | h | h | h
  · repeat (obtain ⟨_, h⟩ := h)
    rw [h]; simp [waitsStarted]
  · repeat (obtain ⟨_, h⟩ := h)
    rw [h]; simp [waitsStarted]
  · repeat (obtain ⟨_, h⟩ := h)
    rw [h]; simp [waitsStarted]
  · repeat (obtain ⟨_, h⟩ := h)
    rw [h]
    refine ⟨⟨[2 * Second], by simp [waitsStarted]⟩, ?_⟩
    intro i e hmem
    simp at hmem
    obtain ⟨rfl, rfl⟩ := hmem
    exact Or.inl ⟨by omega, [], [], _, rfl, Or.inr (by simp)⟩
  · repeat (obtain ⟨_, h⟩ := h)
    rw [h]
    refine ⟨⟨[2 * Second], by simp [waitsStarted]⟩, ?_⟩
    intro i e hmem
    simp at hmem
    obtain ⟨rfl, rfl⟩ := hmem
    exact Or.inl ⟨by omega, [], _, _, rfl, Or.inl (by simp)⟩
  · repeat (obtain ⟨_, h⟩ := h)
    rw [h]
    refine ⟨⟨[], by simp [waitsStarted]⟩, ?_⟩
    intro i e hmem
    simp at hmem
    rcases hmem with ⟨rfl, rfl⟩ | ⟨rfl, rfl⟩
    · exact Or.inl ⟨by omega, [], _, _, rfl, Or.inl (by simp)⟩
    · exact Or.inl ⟨by omega, [_, _], [], _, rfl, Or.inr (by simp)⟩
  · repeat (obtain ⟨_, h⟩ := h)
    rw [h]
    refine ⟨⟨[], by simp [waitsStarted]⟩, ?_⟩
    intro i e hmem
    simp at hmem
    rcases hmem with ⟨rfl, rfl⟩ | ⟨rfl, rfl⟩
    · exact Or.inl ⟨by omega, [], _, _, rfl, Or.inl (by simp)⟩
    · exact Or.inl ⟨by omega, [_, _], _, _, rfl, Or.inl (by simp)⟩
  · repeat (obtain ⟨_, h⟩ := h)
    rw [h]
    refine ⟨⟨[], by simp [waitsStarted]⟩, ?_⟩
    intro i e hmem
    simp at hmem
    rcases hmem with ⟨rfl, rfl⟩ | ⟨rfl, rfl⟩ | ⟨rfl, rfl⟩
    · exact Or.inl ⟨by omega, [], _, _, rfl, Or.inl (by simp)⟩
    · exact Or.inl ⟨by omega, [_, _], _, _, rfl, Or.inl (by simp)⟩
    · exact Or.inr ⟨rfl, [_, _, _, _], rfl⟩

/-- C7 at `recoveringTransport`: two refused attempts, then status 200. -/
theorem retry_third_attempt_succeeds_witness :
    (NRPAPIClientUpdateNRPServices recoveringTransport () "sub" "rg").1 = none ∧
    attemptsOf (NRPAPIClientUpdateNRPServices recoveringTransport () "sub" "rg").2 =
      [(0, AttemptOutcome.transportError "connection refused"),
       (1, AttemptOutcome.transportError "connection refused"),
       (2, AttemptOutcome.response 200)] ∧
    totalBackoff (NRPAPIClientUpdateNRPServices recoveringTransport () "sub" "rg").2 =
      1 * Second + 2 * Second ∧
    (NRPAPIClientUpdateNRPServices recoveringTransport () "sub" "rg").1 =
      (NRPAPIClientUpdateNRPServices
        { recoveringTransport with clientDo := fun _ _ => AttemptOutcome.response 200 }
        () "sub" "rg").1 :=
  (retry_third_attempt_succeeds NRPAPIClientUpdateNRPServices servicesURL (Or.inl ⟨rfl, rfl⟩)
    recoveringTransport () "sub" "rg").1 "null" "connection refused" "connection refused" 200
    rfl rfl (fun _ => rfl) rfl rfl rfl (by decide) (by decide)

/-- C8: the backoff the clients document is 1s, 2s, 4s (the comment at source lines
235 and 294), but the code does not perform the wait of 4s. On a transport that
refuses every attempt, both clients wait 1s after the first failure and 2s after the
second, and after the third failure they return without any wait; and on no
transport is a wait of 4s among those a call starts. -/
theorem backoff_four_seconds_never_started :
    (NRPAPIClientUpdateNRPServices refusingTransport () "sub" "rg").2 =
      [ClientEvent.attempt 0 (AttemptOutcome.transportError "connection refused"),
       ClientEvent.backoffElapsed (1 * Second),
       ClientEvent.attempt 1 (AttemptOutcome.transportError "connection refused"),
       ClientEvent.backoffElapsed (2 * Second),
       ClientEvent.attempt 2 (AttemptOutcome.transportError "connection refused")] ∧
    (NRPAPIClientUpdateNRPLocations refusingTransport () "sub" "rg").2 =
      (NRPAPIClientUpdateNRPServices refusingTransport () "sub" "rg").2 ∧
    4 * Second ∉ waitsStarted (NRPAPIClientUpdateNRPServices refusingTransport () "sub" "rg").2 ∧
    ¬ ∃ (t : Transport Unit) (sub rg : String),
        4 * Second ∈ waitsStarted (NRPAPIClientUpdateNRPServices t () sub rg).2 ∨
        4 * Second ∈ waitsStarted (NRPAPIClientUpdateNRPLocations t () sub rg).2 := by
  refine ⟨by decide, by decide, by decide, ?_⟩
  rintro ⟨t, sub, rg, h⟩
  have key : ∀ u : String, 4 * Second ∉ waitsStarted (sendWithRetry t () u).2 := by
    intro u hmem
    obtain ⟨rest, hrest⟩ := (sendWithRetry_waits t () u).1
    have h2 : 4 * Second ∈ [Second, 2 * Second] := by
      rw [← hrest]; exact List.mem_append_left _ hmem
    simp [Second] at h2
  rcases h with h | h
  · exact key _ h
  · exact key _ h

/-- The waits of the retry loop as coded, for both clients: a call makes at most 3
attempts; the waits it starts are a prefix of 1s, 2s; after the i-th transport-level
failure for i = 1, 2 a wait of 2^(i-1) seconds is started (and runs in full or is
cut short by the context), and the third failure is the last event of the call, the
guard `i < maxRetries-1` skipping the wait the comment lists as 4s; for some
transport outcomes both the wait of 1s and the wait of 2s are performed. -/
theorem retry_waits_as_coded {DTO : Type}
    (call : Transport DTO → DTO → String → String → Option NRPError × List ClientEvent)
    (hcall : call = NRPAPIClientUpdateNRPServices ∨ call = NRPAPIClientUpdateNRPLocations)
    (t : Transport DTO) (dto : DTO) (sub rg : String) :
    (attemptsOf (call t dto sub rg).2).length ≤ maxRetries ∧
    (∃ rest, waitsStarted (call t dto sub rg).2 ++ rest = [1 * Second, 2 * Second]) ∧
    4 * Second ∉ waitsStarted (call t dto sub rg).2 ∧
    (∀ i e, ClientEvent.attempt i (AttemptOutcome.transportError e) ∈ (call t dto sub rg).2 →
      (i + 1 ≤ 2 ∧ ∃ pre post w,
        (call t dto sub rg).2 =
          pre ++ ClientEvent.attempt i (AttemptOutcome.transportError e) :: w :: post ∧
        (w = ClientEvent.backoffElapsed (2 ^ (i + 1 - 1) * Second) ∨
          w = ClientEvent.backoffCancelled (2 ^ (i + 1 - 1) * Second))) ∨
      (i + 1 = 3 ∧ ∃ pre,
        (call t dto sub rg).2 =
          pre ++ [ClientEvent.attempt i (AttemptOutcome.transportError e)])) ∧
    (∃ t2 : Transport DTO,
      (call t2 dto sub rg).2.filter
          (fun ev => ev = ClientEvent.backoffElapsed (1 * Second) ∨
            ev = ClientEvent.backoffElapsed (2 * Second)) =
        [ClientEvent.backoffElapsed (1 * Second), ClientEvent.backoffElapsed (2 * Second)]) := by
  have key : ∀ u : String,
      (attemptsOf (sendWithRetry t dto u).2).length ≤ maxRetries ∧
      (∃ rest, waitsStarted (sendWithRetry t dto u).2 ++ rest = [1 * Second, 2 * Second]) ∧
      4 * Second ∉ waitsStarted (sendWithRetry t dto u).2 ∧
      (∀ i e, ClientEvent.attempt i (AttemptOutcome.transportError e) ∈
          (sendWithRetry t dto u).2 →
        (i + 1 ≤ 2 ∧ ∃ pre post w,
          (sendWithRetry t dto u).2 =
            pre ++ ClientEvent.attempt i (AttemptOutcome.transportError e) :: w :: post ∧
          (w = ClientEvent.backoffElapsed (2 ^ (i + 1 - 1) * Second) ∨
            w = ClientEvent.backoffCancelled (2 ^ (i + 1 - 1) * Second))) ∨
        (i + 1 = 3 ∧ ∃ pre,
          (sendWithRetry t dto u).2 =
            pre ++ [ClientEvent.attempt i (AttemptOutcome.transportError e)])) ∧
      (∃ t2 : Transport DTO,
        (sendWithRetry t2 dto u).2.filter
            (fun ev => ev = ClientEvent.backoffElapsed (1 * Second) ∨
              ev = ClientEvent.backoffElapsed (2 * Second)) =
          [ClientEvent.backoffElapsed (1 * Second),
           ClientEvent.backoffElapsed (2 * Second)]) := by
    intro u
    obtain ⟨hpre, hafter⟩ := sendWithRetry_waits t dto u
    refine ⟨?_, by simpa using hpre, ?_, ?_, ?_⟩
    · rcases sendWithRetry_cases t dto u with h | h | h | h | h | h | h | h
      all_goals
        repeat (obtain ⟨_, h⟩ := h)
        rw [h]
        simp [attemptsOf, maxRetries]
    · intro hmem
      obtain ⟨rest, hrest⟩ := hpre
      have h2 : 4 * Second ∈ [Second, 2 * Second] := by
        rw [← hrest]; exact List.mem_append_left _ hmem
      simp [Second] at h2
    · intro i e hmem
      rcases hafter i e hmem with ⟨hi, h⟩ | ⟨hi, h⟩
      · exact Or.inl ⟨by omega, by simpa using h⟩
      · subst hi
        exact Or.inr ⟨rfl, h⟩
    · refine ⟨{ marshal := fun _ => Except.ok "null", newRequestErr := fun _ => none,
                clientDo := fun _ _ => AttemptOutcome.transportError "connection refused",
                ctxDone := fun _ => none }, ?_⟩
      simp [sendWithRetry, maxRetries, retryLoop, Second]
  rcases hcall with hc | hc
  · subst hc
    exact key (servicesURL sub rg)
  · subst hc
    exact key (locationsURL sub rg)

/-- C9: for both clients, an attempt that obtains a response with a status code
outside 200..299 is the last event of the call (no further attempt, no backoff
wait) and the call returns the non-nil status error; and the call returns nil if
and only if serialization and request construction succeeded and one of its
attempts, of index below 3, obtained a response with status code in 200..299. -/
theorem non_success_status_is_terminal {DTO : Type}
    (call : Transport DTO → DTO → String → String → Option NRPError × List ClientEvent)
    (url : String → String → String)
    (hcall : (call = NRPAPIClientUpdateNRPServices ∧ url = servicesURL) ∨
      (call = NRPAPIClientUpdateNRPLocations ∧ url = locationsURL))
    (t : Transport DTO) (dto : DTO) (sub rg : String) :
    (∀ i code, ClientEvent.attempt i (AttemptOutcome.response code) ∈ (call t dto sub rg).2 →
      (code < 200 ∨ 299 < code) →
      (call t dto sub rg).1 = some (NRPError.nonSuccessStatus code) ∧
      (call t dto sub rg).1 ≠ none ∧
      ∃ pre, (call t dto sub rg).2 = pre ++ [ClientEvent.attempt i (AttemptOutcome.response code)]) ∧
    ((call t dto sub rg).1 = none ↔
      ∃ i code, i < 3 ∧
        ClientEvent.attempt i (AttemptOutcome.response code) ∈ (call t dto sub rg).2 ∧
        200 ≤ code ∧ code ≤ 299 ∧
        (∃ payload, t.marshal dto = Except.ok payload) ∧ t.newRequestErr (url sub rg) = none) := by
  have key : ∀ u : String,
      (∀ i code, ClientEvent.attempt i (AttemptOutcome.response code) ∈ (sendWithRetry t dto u).2 →
        (code < 200 ∨ 299 < code) →
        (sendWithRetry t dto u).1 = some (NRPError.nonSuccessStatus code) ∧
        (sendWithRetry t dto u).1 ≠ none ∧
        ∃ pre, (sendWithRetry t dto u).2 =
          pre ++ [ClientEvent.attempt i (AttemptOutcome.response code)]) ∧
      ((sendWithRetry t dto u).1 = none ↔
        ∃ i code, i < 3 ∧
          ClientEvent.attempt i (AttemptOutcome.response code) ∈ (sendWithRetry t dto u).2 ∧
          200 ≤ code ∧ code ≤ 299 ∧
          (∃ payload, t.marshal dto = Except.ok payload) ∧ t.newRequestErr u = none) := by
    intro u
    rcases sendWithRetry_cases t dto u with h | h | h | h | h | h | h | h
    · obtain ⟨e, hm, h⟩ := h
      rw [h]; simp
    · obtain ⟨p, e, hm, hr, h⟩ := h
      rw [h]; simp
    · obtain ⟨p, c, hm, hr, h0, h⟩ := h
      rw [h]
      refine ⟨?_, ?_⟩
      · intro i code hmem hcode
        simp at hmem
        obtain ⟨rfl, rfl⟩ := hmem
        have hc : code < 200 ∨ code ≥ 300 := by omega
        exact ⟨by simp [afterLoop, hc], by simp [afterLoop, hc], [], rfl⟩
      · constructor
        · intro hres
          have hc : ¬ (c < 200 ∨ c ≥ 300) := by
            intro hc; simp [afterLoop, hc] at hres
          exact ⟨0, c, by omega, by simp, by omega, by omega, ⟨p, hm⟩, hr⟩
        · rintro ⟨i, code, _, hmem, hlo, hhi, _, _⟩
          simp at hmem
          obtain ⟨rfl, rfl⟩ := hmem
          have hc : ¬ (code < 200 ∨ code ≥ 300) := by omega
          simp [afterLoop, hc]
    · obtain ⟨p, e0, x, hm, hr, h0, hc0, h⟩ := h
      rw [h]; simp
    · obtain ⟨p, e0, c, hm, hr, h0, hc0, h1, h⟩ := h
      rw [h]
      refine ⟨?_, ?_⟩
      · intro i code hmem hcode
        simp at hmem
        obtain ⟨rfl, rfl⟩ := hmem
        have hc : code < 200 ∨ code ≥ 300 := by omega
        exact ⟨by simp [afterLoop, hc], by simp [afterLoop, hc], [_, _], rfl⟩
      · constructor
        · intro hres
          have hc : ¬ (c < 200 ∨ c ≥ 300) := by
            intro hc; simp [afterLoop, hc] at hres
          exact ⟨1, c, by omega, by simp, by omega, by omega, ⟨p, hm⟩, hr⟩
        · rintro ⟨i, code, _, hmem, hlo, hhi, _, _⟩
          simp at hmem
          obtain ⟨rfl, rfl⟩ := hmem
          have hc : ¬ (code < 200 ∨ code ≥ 300) := by omega
          simp [afterLoop, hc]
    · obtain ⟨p, e0, e1, x, hm, hr, h0, hc0, h1, hc1, h⟩ := h
      rw [h]; simp
    · obtain ⟨p, e0, e1, c, hm, hr, h0, hc0, h1, hc1, h2, h⟩ := h
      rw [h]
      refine ⟨?_, ?_⟩
      · intro i code hmem hcode
        simp at hmem
        obtain ⟨rfl, rfl⟩ := hmem
        have hc : code < 200 ∨ code ≥ 300 := by omega
        exact ⟨by simp [afterLoop, hc], by simp [afterLoop, hc], [_, _, _, _], rfl⟩
      · constructor
        · intro hres
          have hc : ¬ (c < 200 ∨ c ≥ 300) := by
            intro hc; simp [afterLoop, hc] at hres
          exact ⟨2, c, by omega, by simp, by omega, by omega, ⟨p, hm⟩, hr⟩
        · rintro ⟨i, code, _, hmem, hlo, hhi, _, _⟩
          simp at hmem
          obtain ⟨rfl, rfl⟩ := hmem
          have hc : ¬ (code < 200 ∨ code ≥ 300) := by omega
          simp [afterLoop, hc]
    · obtain ⟨p, e0, e1, e2, hm, hr, h0, hc0, h1, hc1, h2, h⟩ := h
      rw [h]; simp
  rcases hcall with ⟨hc, hu⟩ | ⟨hc, hu⟩
  · subst hc; subst hu
    exact key (servicesURL sub rg)
  · subst hc; subst hu
    exact key (locationsURL sub rg)

/-- C9 at `rejectingTransport`: status 503 on the first attempt ends the call. -/
theorem non_success_status_is_terminal_witness :
    (NRPAPIClientUpdateNRPServices rejectingTransport () "sub" "rg").1 =
      some (NRPError.nonSuccessStatus 503) ∧
    (NRPAPIClientUpdateNRPServices rejectingTransport () "sub" "rg").1 ≠ none ∧
    ∃ pre, (NRPAPIClientUpdateNRPServices rejectingTransport () "sub" "rg").2 =
      pre ++ [ClientEvent.attempt 0 (AttemptOutcome.response 503)] :=
  (non_success_status_is_terminal NRPAPIClientUpdateNRPServices servicesURL (Or.inl ⟨rfl, rfl⟩)
    rejectingTransport () "sub" "rg").1 0 503 (by decide) (by decide)

/-- C10: for both clients, when the attempts up to the k-th (k the first or the
second, counted from 0 here) fail at transport level, the earlier backoff wait, if
any, runs in full, and the context is done during the backoff wait after the k-th
attempt, the call returns the cancellation error that wraps the error of the
context; that wait is cut short and is the last event of the call, so no further
attempt is made, and the backoff waited in full is that of the earlier wait only. -/
theorem cancellation_during_backoff {DTO : Type}
    (call : Transport DTO → DTO → String → String → Option NRPError × List ClientEvent)
    (url : String → String → String)
    (hcall : (call = NRPAPIClientUpdateNRPServices ∧ url = servicesURL) ∨
      (call = NRPAPIClientUpdateNRPLocations ∧ url = locationsURL))
    (t : Transport DTO) (dto : DTO) (sub rg : String) (payload ctxErr : String) (k : Nat)
    (hk : k < 2)
    (hm : t.marshal dto = Except.ok payload) (hr : t.newRequestErr (url sub rg) = none)
    (hfail : ∀ j, j ≤ k →
      ∃ e, t.clientDo (postRequest (url sub rg) payload) j = AttemptOutcome.transportError e)
    (hwait : ∀ j, j < k → t.ctxDone j = none)
    (hcancel : t.ctxDone k = some ctxErr) :
    (call t dto sub rg).1 = some (NRPError.cancelledDuringRetry ctxErr) ∧
    (attemptsOf (call t dto sub rg).2).length = k + 1 ∧
    (∃ pre e, (call t dto sub rg).2 =
      pre ++ [ClientEvent.attempt k (AttemptOutcome.transportError e),
        ClientEvent.backoffCancelled (2 ^ k * Second)]) ∧
    ClientEvent.backoffElapsed (2 ^ k * Second) ∉ (call t dto sub rg).2 ∧
    totalBackoff (call t dto sub rg).2 = (2 ^ k - 1) * Second := by
  have key : ∀ u : String, t.newRequestErr u = none →
      (∀ j, j ≤ k →
        ∃ e, t.clientDo (postRequest u payload) j = AttemptOutcome.transportError e) →
      (sendWithRetry t dto u).1 = some (NRPError.cancelledDuringRetry ctxErr) ∧
      (attemptsOf (sendWithRetry t dto u).2).length = k + 1 ∧
      (∃ pre e, (sendWithRetry t dto u).2 =
        pre ++ [ClientEvent.attempt k (AttemptOutcome.transportError e),
          ClientEvent.backoffCancelled (2 ^ k * Second)]) ∧
      ClientEvent.backoffElapsed (2 ^ k * Second) ∉ (sendWithRetry t dto u).2 ∧
      totalBackoff (sendWithRetry t dto u).2 = (2 ^ k - 1) * Second := by
    intro u hr hfail
    interval_cases k
    · obtain ⟨e0, h0⟩ := hfail 0 (by omega)
      have h : sendWithRetry t dto u =
          (some (NRPError.cancelledDuringRetry ctxErr),
            [ClientEvent.attempt 0 (AttemptOutcome.transportError e0),
             ClientEvent.backoffCancelled Second]) := by
        simp [sendWithRetry, hm, hr, maxRetries, retryLoop, h0, hcancel, afterLoop]
      rw [h]
      refine ⟨rfl, by simp [attemptsOf], ⟨[], e0, by simp⟩, by simp, by simp [totalBackoff]⟩
    · obtain ⟨e0, h0⟩ := hfail 0 (by omega)
      obtain ⟨e1, h1⟩ := hfail 1 (by omega)
      have hc0 := hwait 0 (by omega)
      have h : sendWithRetry t dto u =
          (some (NRPError.cancelledDuringRetry ctxErr),
            [ClientEvent.attempt 0 (AttemptOutcome.transportError e0),
             ClientEvent.backoffElapsed Second,
             ClientEvent.attempt 1 (AttemptOutcome.transportError e1),
             ClientEvent.backoffCancelled (2 * Second)]) := by
        simp [sendWithRetry, hm, hr, maxRetries, retryLoop, h0, h1, hc0, hcancel, afterLoop]
      rw [h]
      refine ⟨rfl, by simp [attemptsOf],
        ⟨[ClientEvent.attempt 0 (AttemptOutcome.transportError e0),
          ClientEvent.backoffElapsed Second], e1, by simp⟩, by simp [Second],
        by simp [totalBackoff]⟩
  rcases hcall with ⟨hc, hu⟩ | ⟨hc, hu⟩
  · subst hc; subst hu
    exact key (servicesURL sub rg) hr hfail
  · subst hc; subst hu
    exact key (locationsURL sub rg) hr hfail

/-- C10 at `cancelledTransport`: the context is done during the first wait. -/
theorem cancellation_during_backoff_witness :
    (NRPAPIClientUpdateNRPLocations cancelledTransport () "sub" "rg").1 =
      some (NRPError.cancelledDuringRetry "context canceled") ∧
    (attemptsOf (NRPAPIClientUpdateNRPLocations cancelledTransport () "sub" "rg").2).length =
      0 + 1 ∧
    (∃ pre e, (NRPAPIClientUpdateNRPLocations cancelledTransport () "sub" "rg").2 =
      pre ++ [ClientEvent.attempt 0 (AttemptOutcome.transportError e),
        ClientEvent.backoffCancelled (2 ^ 0 * Second)]) ∧
    ClientEvent.backoffElapsed (2 ^ 0 * Second) ∉
      (NRPAPIClientUpdateNRPLocations cancelledTransport () "sub" "rg").2 ∧
    totalBackoff (NRPAPIClientUpdateNRPLocations cancelledTransport () "sub" "rg").2 =
      (2 ^ 0 - 1) * Second :=
  cancellation_during_backoff NRPAPIClientUpdateNRPLocations locationsURL (Or.inr ⟨rfl, rfl⟩)
    cancelledTransport () "sub" "rg" "null" "context canceled" 0 (by decide) rfl rfl
    (fun j hj => ⟨"connection refused", by
      have hj0 : j = 0 := by omega
      subst hj0
      rfl⟩)
    (fun j hj => absurd hj (by omega)) rfl


/-- C6: an endpoint slice that has an owning service `u` is merged into the input
built for the service `s` exactly when `strings.EqualFold(u, s)` holds, in the loop
over the additions as in the loop over the removals: when it holds, the visit of the
slice replaces the map under construction by its merge with the map of the slice, so
that every entry of the slice is in it; when it does not hold, and for a slice
without owning service, the visit leaves the input as it is. The map built for `s`
is the fold of `mergeMaps` over the maps of the matching slices. -/
theorem case_insensitive_correlation {D S L SDTO LDTO E : Type}
    (c : Collaborators D S L SDTO LDTO E) (s u : String) (r : E)
    (input : UpdateK8sEndpointsInputType)
    (hu : c.getServiceUIDOfEndpointSlice r = (u, true)) :
    matchesService c s r = c.equalFold u s ∧
    (c.equalFold u s = true →
      visitAdded c s input r =
        { input with
          NewAddresses := some (mergeMaps [orEmpty input.NewAddresses,
            c.getPodIPToNodeIPMapFromEndpointSlice r false]) } ∧
      visitRemoved c s input r =
        { input with
          OldAddresses := some (mergeMaps [orEmpty input.OldAddresses,
            c.getPodIPToNodeIPMapFromEndpointSlice r false]) } ∧
      ∀ p n, (c.getPodIPToNodeIPMapFromEndpointSlice r false).get? p = some n →
        (orEmpty (visitAdded c s input r).NewAddresses).get? p = some n ∧
        (orEmpty (visitRemoved c s input r).OldAddresses).get? p = some n) ∧
    (c.equalFold u s = false →
      visitAdded c s input r = input ∧ visitRemoved c s input r = input) ∧
    (∀ r2, (c.getServiceUIDOfEndpointSlice r2).2 = false →
      matchesService c s r2 = false ∧
      visitAdded c s input r2 = input ∧ visitRemoved c s input r2 = input) ∧
    (correlateAdded c s).NewAddresses = some (foldMerge (matchingMaps c true s)) ∧
    (correlateRemoved c s).OldAddresses = some (foldMerge (matchingMaps c false s)) := by
  refine ⟨by simp [matchesService, hu], ?_, ?_, ?_, ?_, ?_⟩
  · intro h
    have hA : visitAdded c s input r =
        { input with
          NewAddresses := some (mergeMaps [orEmpty input.NewAddresses,
            c.getPodIPToNodeIPMapFromEndpointSlice r false]) } := by
      simp [visitAdded, hu, h]
    have hR : visitRemoved c s input r =
        { input with
          OldAddresses := some (mergeMaps [orEmpty input.OldAddresses,
            c.getPodIPToNodeIPMapFromEndpointSlice r false]) } := by
      simp [visitRemoved, hu, h]
    refine ⟨hA, hR, ?_⟩
    intro p n hp
    rw [hA, hR]
    simp [orEmpty, get?_mergeMaps_pair, hp]
  · intro h
    exact ⟨by simp [visitAdded, hu, h], by simp [visitRemoved, hu, h]⟩
  · intro r2 h2
    exact ⟨by simp [matchesService, h2], by simp [visitAdded, h2], by simp [visitRemoved, h2]⟩
  · rw [correlateAdded_eq]
  · rw [correlateRemoved_eq]

/-- C6 at the sample cache: the slice owned by `SVC-A` is merged for `svc-a`. -/
theorem case_insensitive_correlation_witness :
    sampleCollaborators.equalFold "SVC-A" "svc-a" = true ∧
    (orEmpty (visitAdded sampleCollaborators "svc-a"
        { InboundIdentity := "svc-a", OldAddresses := none, NewAddresses := some GoMap.empty }
        { owner := some "SVC-A", addresses := GoMap.empty.set "10.0.0.1" "node-1" }).NewAddresses).get?
      "10.0.0.1" = some "node-1" :=
  ⟨by decide,
   (((case_insensitive_correlation sampleCollaborators "svc-a" "SVC-A"
      { owner := some "SVC-A", addresses := GoMap.empty.set "10.0.0.1" "node-1" }
      { InboundIdentity := "svc-a", OldAddresses := none, NewAddresses := some GoMap.empty }
      rfl).2.1 (by decide)).2.2 "10.0.0.1" "node-1" (by decide)).1⟩

/-! ## The cycle -/

section Cycle

variable {D S L SDTO LDTO E : Type}

theorem propagateAdded_eq (c : Collaborators D S L SDTO LDTO E)
    (sl : SyncServicesReturnType S) (az : Cloud D) :
    propagateAdded c sl az =
      ({ SubscriptionID := az.SubscriptionID, ResourceGroup := az.ResourceGroup,
         diffTracker := (addedDeltas c sl).foldl c.UpdateK8sEndpoints az.diffTracker,
         localServiceNameToNRPServiceMap :=
           (c.unsortedList sl.Additions).foldl loadOrStore az.localServiceNameToNRPServiceMap },
        (addedDeltas c sl).map Event.UpdateK8sEndpoints) := by
  unfold propagateAdded addedDeltas
  suffices h : ∀ (l : List String) (acc : Cloud D × List (Event S L SDTO LDTO)),
      l.foldl
        (fun acc serviceName =>
          let az1 : Cloud D := { acc.1 with
            localServiceNameToNRPServiceMap :=
              loadOrStore acc.1.localServiceNameToNRPServiceMap serviceName }
          let updateK8sEndpointsInputType := correlateAdded c serviceName
          if (orEmpty updateK8sEndpointsInputType.NewAddresses).len > 0 then
            ({ az1 with
                diffTracker := c.UpdateK8sEndpoints az1.diffTracker updateK8sEndpointsInputType },
              acc.2 ++ [Event.UpdateK8sEndpoints updateK8sEndpointsInputType])
          else (az1, acc.2)) acc =
      ({ SubscriptionID := acc.1.SubscriptionID, ResourceGroup := acc.1.ResourceGroup,
         diffTracker := (l.filterMap (fun serviceName =>
            if (foldMerge (matchingMaps c true serviceName)).len > 0 then
              some { InboundIdentity := serviceName, OldAddresses := none,
                     NewAddresses := some (foldMerge (matchingMaps c true serviceName)) }
            else none)).foldl c.UpdateK8sEndpoints acc.1.diffTracker,
         localServiceNameToNRPServiceMap :=
           l.foldl loadOrStore acc.1.localServiceNameToNRPServiceMap },
        acc.2 ++ (l.filterMap (fun serviceName =>
            if (foldMerge (matchingMaps c true serviceName)).len > 0 then
              some { InboundIdentity := serviceName, OldAddresses := none,
                     NewAddresses := some (foldMerge (matchingMaps c true serviceName)) }
            else none)).map Event.UpdateK8sEndpoints) by
    simpa using h (c.unsortedList sl.Additions) (az, [])
  intro l
  induction l with
  | nil => intro acc; simp
  | cons x l ih =>
    intro acc
    rw [List.foldl_cons, ih]
    by_cases hx : (foldMerge (matchingMaps c true x)).len > 0
    · simp [correlateAdded_eq, orEmpty, hx, List.filterMap_cons]
    · simp [correlateAdded_eq, orEmpty, hx, List.filterMap_cons]

theorem propagateRemoved_eq (c : Collaborators D S L SDTO LDTO E)
    (sl : SyncServicesReturnType S) (az : Cloud D) :
    propagateRemoved c sl az =
      ({ SubscriptionID := az.SubscriptionID, ResourceGroup := az.ResourceGroup,
         diffTracker := (removedDeltas c sl).foldl c.UpdateK8sEndpoints az.diffTracker,
         localServiceNameToNRPServiceMap := az.localServiceNameToNRPServiceMap },
        (removedDeltas c sl).map Event.UpdateK8sEndpoints) := by
  unfold propagateRemoved removedDeltas
  suffices h : ∀ (l : List String) (acc : Cloud D × List (Event S L SDTO LDTO)),
      l.foldl
        (fun acc serviceName =>
          let updateK8sEndpointsInputType := correlateRemoved c serviceName
          if (orEmpty updateK8sEndpointsInputType.OldAddresses).len > 0 then
            ({ acc.1 with
                diffTracker := c.UpdateK8sEndpoints acc.1.diffTracker updateK8sEndpointsInputType },
              acc.2 ++ [Event.UpdateK8sEndpoints updateK8sEndpointsInputType])
          else acc) acc =
      ({ SubscriptionID := acc.1.SubscriptionID, ResourceGroup := acc.1.ResourceGroup,
         diffTracker := (l.filterMap (fun serviceName =>
            if (foldMerge (matchingMaps c false serviceName)).len > 0 then
              some { InboundIdentity := serviceName,
                     OldAddresses := some (foldMerge (matchingMaps c false serviceName)),
                     NewAddresses := none }
            else none)).foldl c.UpdateK8sEndpoints acc.1.diffTracker,
         localServiceNameToNRPServiceMap := acc.1.localServiceNameToNRPServiceMap },
        acc.2 ++ (l.filterMap (fun serviceName =>
            if (foldMerge (matchingMaps c false serviceName)).len > 0 then
              some { InboundIdentity := serviceName,
                     OldAddresses := some (foldMerge (matchingMaps c false serviceName)),
                     NewAddresses := none }
            else none)).map Event.UpdateK8sEndpoints) by
    simpa using h (c.unsortedList sl.Removals) (az, [])
  intro l
  induction l with
  | nil => intro acc; simp
  | cons x l ih =>
    intro acc
    rw [List.foldl_cons, ih]
    by_cases hx : (foldMerge (matchingMaps c false x)).len > 0
    · simp [correlateRemoved_eq, orEmpty, hx, List.filterMap_cons]
    · simp [correlateRemoved_eq, orEmpty, hx, List.filterMap_cons]

theorem ordered_nil (c : Collaborators D S L SDTO LDTO E) (sub rg : String) :
    Ordered c sub rg ([] : List (Event S L SDTO LDTO)) :=
  ⟨List.chain'_nil, by simp⟩

theorem ordered_append (c : Collaborators D S L SDTO LDTO E) (sub rg : String)
    (a b : List (Event S L SDTO LDTO)) (ha : Ordered c sub rg a) (hclean : Clean a)
    (hb : Ordered c sub rg b) : Ordered c sub rg (a ++ b) := by
  refine ⟨List.Chain'.append ha.1 hb.1 ?_, ?_⟩
  · intro x hx y hy
    have hy2 := hb.2 y hy
    refine ⟨hclean x (List.mem_of_mem_getLast? hx), ?_, ?_⟩
    · intro arg h; subst h; simp [Event.acknowledges] at hy2
    · intro l h; subst h; simp [Event.acknowledges] at hy2
  · intro y hy
    cases a with
    | nil => exact hb.2 y (by simpa using hy)
    | cons x a => exact ha.2 y (by simpa using hy)

theorem clean_append (a b : List (Event S L SDTO LDTO)) (ha : Clean a) (hb : Clean b) :
    Clean (a ++ b) := by
  intro x hx
  rcases List.mem_append.1 hx with h | h
  · exact ha x h
  · exact hb x h

theorem ordered_deltas (c : Collaborators D S L SDTO LDTO E) (sub rg : String)
    (ds : List UpdateK8sEndpointsInputType) :
    Ordered c sub rg (ds.map (Event.UpdateK8sEndpoints : _ → Event S L SDTO LDTO)) ∧
    Clean (ds.map (Event.UpdateK8sEndpoints : _ → Event S L SDTO LDTO)) := by
  induction ds with
  | nil => exact ⟨ordered_nil c sub rg, by simp [Clean]⟩
  | cons d ds ih =>
    refine ⟨⟨?_, by simp [Event.acknowledges]⟩, ?_⟩
    · rw [List.map_cons, List.chain'_cons']
      refine ⟨?_, ih.1.1⟩
      intro y hy
      have hy2 : y ∈ ds.map (Event.UpdateK8sEndpoints : _ → Event S L SDTO LDTO) :=
        List.mem_of_mem_head? hy
      obtain ⟨d2, _, rfl⟩ := List.mem_map.1 hy2
      exact ⟨rfl, (by intro arg h; cases h), (by intro l h; cases h)⟩
    · intro x hx
      rw [List.map_cons, List.mem_cons] at hx
      rcases hx with rfl | hx
      · rfl
      · exact ih.2 x hx

theorem replayCommits_append (c : Collaborators D S L SDTO LDTO E) (d : D)
    (a b : List (Event S L SDTO LDTO)) :
    replayCommits c d (a ++ b) = replayCommits c (replayCommits c d a) b := by
  simp [replayCommits, List.foldl_append]

theorem replayCommits_deltas (c : Collaborators D S L SDTO LDTO E) (d : D)
    (ds : List UpdateK8sEndpointsInputType) :
    replayCommits c d (ds.map (Event.UpdateK8sEndpoints : _ → Event S L SDTO LDTO)) =
      ds.foldl c.UpdateK8sEndpoints d := by
  induction ds generalizing d with
  | nil => rfl
  | cons x ds ih =>
    rw [List.map_cons, List.foldl_cons, ← ih]
    rfl

theorem k8sCommits_append (a b : List (Event S L SDTO LDTO)) :
    k8sCommits (a ++ b) = k8sCommits a ++ k8sCommits b := by
  simp [k8sCommits, List.filterMap_append]

theorem k8sCommits_deltas (ds : List UpdateK8sEndpointsInputType) :
    k8sCommits (ds.map (Event.UpdateK8sEndpoints : _ → Event S L SDTO LDTO)) = ds := by
  induction ds with
  | nil => rfl
  | cons x ds ih =>
    rw [List.map_cons]
    unfold k8sCommits at ih ⊢
    rw [List.filterMap_cons]
    simp only []
    rw [ih]

/-- The block "Add services": its events are ordered and hold no delta; when the
cycle goes on, none of them is a failure and the state is the one its commits give;
when the cycle returns, it made no commit. -/
theorem addServices_spec (c : Collaborators D S L SDTO LDTO E) (net : Network SDTO LDTO)
    (sl : SyncServicesReturnType S) (az : Cloud D) :
    Ordered c az.SubscriptionID az.ResourceGroup (addServices c net sl az).2 ∧
    k8sCommits (addServices c net sl az).2 = [] ∧
    (∀ l, Event.GetSyncLocationsAddresses l ∉ (addServices c net sl az).2) ∧
    (∀ az1, (addServices c net sl az).1 = some az1 →
      Clean (addServices c net sl az).2 ∧
      az1.SubscriptionID = az.SubscriptionID ∧ az1.ResourceGroup = az.ResourceGroup ∧
      az1.diffTracker = replayCommits c az.diffTracker (addServices c net sl az).2) ∧
    ((addServices c net sl az).1 = none →
      ∀ d, replayCommits c d (addServices c net sl az).2 = d) := by
  unfold addServices
  by_cases hlen : c.setLen sl.Additions > 0
  · simp only [hlen, if_true]
    cases (NRPAPIClientUpdateNRPServices net.addServices
        (c.MapLoadBalancerUpdatesToServicesDataDTO
          { Additions := sl.Additions, Removals := c.nilSet }
          az.SubscriptionID az.ResourceGroup) az.SubscriptionID az.ResourceGroup).1 with
    | none =>
      refine ⟨⟨?_, by simp [Event.acknowledges]⟩, by simp [k8sCommits], by simp, ?_, by simp⟩
      · rw [List.chain'_cons]
        exact ⟨⟨rfl, by intro arg h; cases h; rfl, by intro l h; cases h⟩,
          List.chain'_singleton _⟩
      · intro az1 h
        simp only [Option.some.injEq] at h
        subst h
        exact ⟨by simp [Clean, Event.failure], rfl, rfl, by simp [replayCommits]⟩
    | some err =>
      exact ⟨⟨List.chain'_singleton _, by simp [Event.acknowledges]⟩, by simp [k8sCommits],
        by simp, by simp, by simp [replayCommits]⟩
  · simp only [hlen, if_false]
    exact ⟨ordered_nil _ _ _, rfl, by simp, by
      intro az1 h
      simp only [Option.some.injEq] at h
      subst h
      exact ⟨by simp [Clean], rfl, rfl, rfl⟩, by simp⟩

/-- The block "Remove services", as `addServices_spec`. -/
theorem removeServices_spec (c : Collaborators D S L SDTO LDTO E) (net : Network SDTO LDTO)
    (sl : SyncServicesReturnType S) (az : Cloud D) :
    Ordered c az.SubscriptionID az.ResourceGroup (removeServices c net sl az).2 ∧
    k8sCommits (removeServices c net sl az).2 = [] ∧
    (∀ l, Event.GetSyncLocationsAddresses l ∉ (removeServices c net sl az).2) ∧
    (∀ az1, (removeServices c net sl az).1 = some az1 →
      Clean (removeServices c net sl az).2 ∧
      az1.SubscriptionID = az.SubscriptionID ∧ az1.ResourceGroup = az.ResourceGroup ∧
      az1.diffTracker = replayCommits c az.diffTracker (removeServices c net sl az).2) ∧
    ((removeServices c net sl az).1 = none →
      ∀ d, replayCommits c d (removeServices c net sl az).2 = d) := by
  unfold removeServices
  by_cases hlen : c.setLen sl.Removals > 0
  · simp only [hlen, if_true]
    cases (NRPAPIClientUpdateNRPServices net.removeServices
        (c.MapLoadBalancerUpdatesToServicesDataDTO
          { Additions := c.nilSet, Removals := sl.Removals }
          az.SubscriptionID az.ResourceGroup) az.SubscriptionID az.ResourceGroup).1 with
    | none =>
      refine ⟨⟨?_, by simp [Event.acknowledges]⟩, by simp [k8sCommits], by simp, ?_, by simp⟩
      · rw [List.chain'_cons]
        exact ⟨⟨rfl, by intro arg h; cases h; rfl, by intro l h; cases h⟩,
          List.chain'_singleton _⟩
      · intro az1 h
        simp only [Option.some.injEq] at h
        subst h
        exact ⟨by simp [Clean, Event.failure], rfl, rfl, by simp [replayCommits]⟩
    | some err =>
      exact ⟨⟨List.chain'_singleton _, by simp [Event.acknowledges]⟩, by simp [k8sCommits],
        by simp, by simp, by simp [replayCommits]⟩
  · simp only [hlen, if_false]
    exact ⟨ordered_nil _ _ _, rfl, by simp, by
      intro az1 h
      simp only [Option.some.injEq] at h
      subst h
      exact ⟨by simp [Clean], rfl, rfl, rfl⟩, by simp⟩

/-- The block "Update all locations and addresses", as `addServices_spec`; the one
read among its events is that of the location data of the state it starts in. -/
theorem updateLocations_spec (c : Collaborators D S L SDTO LDTO E) (net : Network SDTO LDTO)
    (az : Cloud D) :
    Ordered c az.SubscriptionID az.ResourceGroup (updateLocations c net az).2 ∧
    k8sCommits (updateLocations c net az).2 = [] ∧
    (∀ l, Event.GetSyncLocationsAddresses l ∈ (updateLocations c net az).2 ↔
      l = c.GetSyncLocationsAddresses az.diffTracker) ∧
    (∀ az1, (updateLocations c net az).1 = some az1 →
      Clean (updateLocations c net az).2 ∧
      az1.SubscriptionID = az.SubscriptionID ∧ az1.ResourceGroup = az.ResourceGroup ∧
      az1.diffTracker = replayCommits c az.diffTracker (updateLocations c net az).2) ∧
    ((updateLocations c net az).1 = none →
      ∀ d, replayCommits c d (updateLocations c net az).2 = d) := by
  unfold updateLocations
  by_cases hlen : c.locationsLen (c.GetSyncLocationsAddresses az.diffTracker) > 0
  · simp only [hlen, if_true]
    cases (NRPAPIClientUpdateNRPLocations net.updateLocations
        (c.MapLocationDataToDTO (c.GetSyncLocationsAddresses az.diffTracker))
        az.SubscriptionID az.ResourceGroup).1 with
    | none =>
      refine ⟨⟨?_, by simp [Event.acknowledges]⟩, by simp [k8sCommits], by simp, ?_, by simp⟩
      · rw [List.chain'_cons, List.chain'_cons]
        exact ⟨⟨rfl, (by intro arg h; cases h), (by intro l h; cases h)⟩,
          ⟨rfl, (by intro arg h; cases h), (by intro l h; cases h; rfl)⟩,
          List.chain'_singleton _⟩
      · intro az1 h
        simp only [Option.some.injEq] at h
        subst h
        exact ⟨by simp [Clean, Event.failure], rfl, rfl, by simp [replayCommits]⟩
    | some err =>
      refine ⟨⟨?_, by simp [Event.acknowledges]⟩, by simp [k8sCommits], by simp, by simp,
        by simp [replayCommits]⟩
      rw [List.chain'_cons]
      exact ⟨⟨rfl, (by intro arg h; cases h), (by intro l h; cases h)⟩, List.chain'_singleton _⟩
  · simp only [hlen, if_false]
    exact ⟨⟨List.chain'_singleton _, by simp [Event.acknowledges]⟩, by simp [k8sCommits],
      by simp, by
        intro az1 h
        simp only [Option.some.injEq] at h
        subst h
        exact ⟨by simp [Clean, Event.failure], rfl, rfl, by simp [replayCommits]⟩, by simp⟩

/-- The cycle as a whole: its events are ordered, the diff tracker it leaves is the
one its commits give, and when the block "Add services" does not return, its deltas
are those of the added services followed by those of the removed services. -/
theorem process_core (c : Collaborators D S L SDTO LDTO E) (net : Network SDTO LDTO)
    (az : Cloud D) :
    Ordered c az.SubscriptionID az.ResourceGroup (process c net az).2 ∧
    (process c net az).1.diffTracker =
      replayCommits c az.diffTracker (process c net az).2 ∧
    ((addServices c net (c.GetSyncLoadBalancerServices az.diffTracker) az).1 ≠ none →
      k8sCommits (process c net az).2 =
        addedDeltas c (c.GetSyncLoadBalancerServices az.diffTracker) ++
          removedDeltas c (c.GetSyncLoadBalancerServices az.diffTracker)) := by
  have hA := addServices_spec c net (c.GetSyncLoadBalancerServices az.diffTracker) az
  have O0 : Ordered c az.SubscriptionID az.ResourceGroup
      [(Event.GetSyncLoadBalancerServices (c.GetSyncLoadBalancerServices az.diffTracker) :
        Event S L SDTO LDTO)] :=
    ⟨List.chain'_singleton _, by simp [Event.acknowledges]⟩
  have C0 : Clean [(Event.GetSyncLoadBalancerServices
      (c.GetSyncLoadBalancerServices az.diffTracker) : Event S L SDTO LDTO)] := by
    simp [Clean, Event.failure]
  cases h1 : addServices c net (c.GetSyncLoadBalancerServices az.diffTracker) az with
  | mk o1 tr1 =>
    rw [h1] at hA
    obtain ⟨hA1, hA2, -, hA3, hA4⟩ := hA
    cases o1 with
    | none =>
      have hp : process c net az =
          (az, [Event.GetSyncLoadBalancerServices
            (c.GetSyncLoadBalancerServices az.diffTracker)] ++ tr1) := by
        simp only [process, h1]
      rw [hp]
      refine ⟨ordered_append c _ _ _ tr1 O0 C0 hA1, ?_, by simp⟩
      show az.diffTracker = replayCommits c az.diffTracker (_ ++ tr1)
      rw [replayCommits_append, hA4 rfl]
      rfl
    | some az1 =>
      obtain ⟨hA5, hsub1, hrg1, hd1⟩ := hA3 az1 rfl
      have e2 : (propagateAdded c (c.GetSyncLoadBalancerServices az.diffTracker) az1).2 =
          (addedDeltas c (c.GetSyncLoadBalancerServices az.diffTracker)).map
            Event.UpdateK8sEndpoints := by rw [propagateAdded_eq]
      have e3 : (propagateRemoved c (c.GetSyncLoadBalancerServices az.diffTracker)
          (propagateAdded c (c.GetSyncLoadBalancerServices az.diffTracker) az1).1).2 =
          (removedDeltas c (c.GetSyncLoadBalancerServices az.diffTracker)).map
            Event.UpdateK8sEndpoints := by rw [propagateRemoved_eq]
      have hsub3 : (propagateRemoved c (c.GetSyncLoadBalancerServices az.diffTracker)
          (propagateAdded c (c.GetSyncLoadBalancerServices az.diffTracker) az1).1).1.SubscriptionID =
          az.SubscriptionID := by rw [propagateRemoved_eq, propagateAdded_eq]; exact hsub1
      have hrg3 : (propagateRemoved c (c.GetSyncLoadBalancerServices az.diffTracker)
          (propagateAdded c (c.GetSyncLoadBalancerServices az.diffTracker) az1).1).1.ResourceGroup =
          az.ResourceGroup := by rw [propagateRemoved_eq, propagateAdded_eq]; exact hrg1
      have hd3 : (propagateRemoved c (c.GetSyncLoadBalancerServices az.diffTracker)
          (propagateAdded c (c.GetSyncLoadBalancerServices az.diffTracker) az1).1).1.diffTracker =
          (removedDeltas c (c.GetSyncLoadBalancerServices az.diffTracker)).foldl
            c.UpdateK8sEndpoints
            ((addedDeltas c (c.GetSyncLoadBalancerServices az.diffTracker)).foldl
              c.UpdateK8sEndpoints az1.diffTracker) := by
        rw [propagateRemoved_eq, propagateAdded_eq]
      have hD2 := @ordered_deltas D S L SDTO LDTO E c
        az.SubscriptionID az.ResourceGroup
        (addedDeltas c (c.GetSyncLoadBalancerServices az.diffTracker))
      have hD3 := @ordered_deltas D S L SDTO LDTO E c
        az.SubscriptionID az.ResourceGroup
        (removedDeltas c (c.GetSyncLoadBalancerServices az.diffTracker))
      rw [← e2] at hD2
      rw [← e3] at hD3
      have O3 := ordered_append c _ _ _ _
        (ordered_append c _ _ _ _ (ordered_append c _ _ _ tr1 O0 C0 hA1)
          (clean_append _ _ C0 hA5) hD2.1)
        (clean_append _ _ (clean_append _ _ C0 hA5) hD2.2) hD3.1
      have C3 := clean_append _ _ (clean_append _ _ (clean_append _ _ C0 hA5) hD2.2) hD3.2
      have R3 : replayCommits c az.diffTracker
          ([Event.GetSyncLoadBalancerServices (c.GetSyncLoadBalancerServices az.diffTracker)] ++
            tr1 ++
            (propagateAdded c (c.GetSyncLoadBalancerServices az.diffTracker) az1).2 ++
            (propagateRemoved c (c.GetSyncLoadBalancerServices az.diffTracker)
              (propagateAdded c (c.GetSyncLoadBalancerServices az.diffTracker) az1).1).2) =
          (propagateRemoved c (c.GetSyncLoadBalancerServices az.diffTracker)
            (propagateAdded c (c.GetSyncLoadBalancerServices az.diffTracker) az1).1).1.diffTracker := by
        rw [hd3, e2, e3, replayCommits_append, replayCommits_append, replayCommits_append,
          replayCommits_deltas, replayCommits_deltas, hd1]
        rfl
      have K3 : k8sCommits
          ([Event.GetSyncLoadBalancerServices (c.GetSyncLoadBalancerServices az.diffTracker)] ++
            tr1 ++
            (propagateAdded c (c.GetSyncLoadBalancerServices az.diffTracker) az1).2 ++
            (propagateRemoved c (c.GetSyncLoadBalancerServices az.diffTracker)
              (propagateAdded c (c.GetSyncLoadBalancerServices az.diffTracker) az1).1).2) =
          addedDeltas c (c.GetSyncLoadBalancerServices az.diffTracker) ++
            removedDeltas c (c.GetSyncLoadBalancerServices az.diffTracker) := by
        rw [e2, e3, k8sCommits_append, k8sCommits_append, k8sCommits_append, k8sCommits_deltas,
          k8sCommits_deltas, hA2]
        simp [k8sCommits]
      have hL := updateLocations_spec c net
        (propagateRemoved c (c.GetSyncLoadBalancerServices az.diffTracker)
          (propagateAdded c (c.GetSyncLoadBalancerServices az.diffTracker) az1).1).1
      rw [hsub3, hrg3] at hL
      cases h4 : updateLocations c net
          (propagateRemoved c (c.GetSyncLoadBalancerServices az.diffTracker)
            (propagateAdded c (c.GetSyncLoadBalancerServices az.diffTracker) az1).1).1 with
      | mk o4 tr4 =>
        rw [h4] at hL
        obtain ⟨hL1, hL2, -, hL3, hL4⟩ := hL
        cases o4 with
        | none =>
          have hp : process c net az =
              ((propagateRemoved c (c.GetSyncLoadBalancerServices az.diffTracker)
                (propagateAdded c (c.GetSyncLoadBalancerServices az.diffTracker) az1).1).1,
               [Event.GetSyncLoadBalancerServices
                  (c.GetSyncLoadBalancerServices az.diffTracker)] ++ tr1 ++
                (propagateAdded c (c.GetSyncLoadBalancerServices az.diffTracker) az1).2 ++
                (propagateRemoved c (c.GetSyncLoadBalancerServices az.diffTracker)
                  (propagateAdded c (c.GetSyncLoadBalancerServices az.diffTracker) az1).1).2 ++
                tr4) := by
            simp only [process, h1, h4]
          rw [hp]
          refine ⟨ordered_append c _ _ _ tr4 O3 C3 hL1, ?_, ?_⟩
          · show _ = replayCommits c az.diffTracker (_ ++ tr4)
            rw [replayCommits_append, hL4 rfl, R3]
          · intro _
            show k8sCommits (_ ++ tr4) = _
            rw [k8sCommits_append, K3]
            simp only [] at hL2
            rw [hL2, List.append_nil]
        | some az4 =>
          obtain ⟨hL5, hsub4, hrg4, hd4⟩ := hL3 az4 rfl
          have hR := removeServices_spec c net (c.GetSyncLoadBalancerServices az.diffTracker) az4
          rw [hsub4, hrg4] at hR
          cases h5 : removeServices c net (c.GetSyncLoadBalancerServices az.diffTracker) az4 with
          | mk o5 tr5 =>
            rw [h5] at hR
            obtain ⟨hR1, hR2, -, hR3, hR4⟩ := hR
            have O5 := ordered_append c _ _ _ tr5 (ordered_append c _ _ _ tr4 O3 C3 hL1)
              (clean_append _ _ C3 hL5) hR1
            simp only [] at hL2 hR2 hd4
            cases o5 with
            | none =>
              have hp : process c net az =
                  (az4,
                   [Event.GetSyncLoadBalancerServices
                      (c.GetSyncLoadBalancerServices az.diffTracker)] ++ tr1 ++
                    (propagateAdded c (c.GetSyncLoadBalancerServices az.diffTracker) az1).2 ++
                    (propagateRemoved c (c.GetSyncLoadBalancerServices az.diffTracker)
                      (propagateAdded c (c.GetSyncLoadBalancerServices az.diffTracker)
                        az1).1).2 ++
                    tr4 ++ tr5) := by
                simp only [process, h1, h4, h5]
              rw [hp]
              refine ⟨O5, ?_, ?_⟩
              · show az4.diffTracker = replayCommits c az.diffTracker (_ ++ tr4 ++ tr5)
                rw [replayCommits_append, hR4 rfl, replayCommits_append, R3, hd4]
              · intro _
                show k8sCommits (_ ++ tr4 ++ tr5) = _
                rw [k8sCommits_append, k8sCommits_append, K3, hL2, hR2, List.append_nil,
                  List.append_nil]
            | some az5 =>
              obtain ⟨-, -, -, hd5⟩ := hR3 az5 rfl
              have hp : process c net az =
                  (az5,
                   [Event.GetSyncLoadBalancerServices
                      (c.GetSyncLoadBalancerServices az.diffTracker)] ++ tr1 ++
                    (propagateAdded c (c.GetSyncLoadBalancerServices az.diffTracker) az1).2 ++
                    (propagateRemoved c (c.GetSyncLoadBalancerServices az.diffTracker)
                      (propagateAdded c (c.GetSyncLoadBalancerServices az.diffTracker)
                        az1).1).2 ++
                    tr4 ++ tr5) := by
                simp only [process, h1, h4, h5]
              rw [hp]
              refine ⟨O5, ?_, ?_⟩
              · show az5.diffTracker = replayCommits c az.diffTracker (_ ++ tr4 ++ tr5)
                simp only [] at hd5
                rw [replayCommits_append, replayCommits_append, R3, ← hd4, hd5]
              · intro _
                show k8sCommits (_ ++ tr4 ++ tr5) = _
                rw [k8sCommits_append, k8sCommits_append, K3, hL2, hR2, List.append_nil,
                  List.append_nil]

/-- In an ordered stretch of events nothing follows a failed remote call. -/
theorem ordered_failure_last (c : Collaborators D S L SDTO LDTO E) (sub rg : String)
    (tr pre post : List (Event S L SDTO LDTO)) (x : Event S L SDTO LDTO)
    (h : Ordered c sub rg tr) (htr : tr = pre ++ x :: post) (hx : x.failure ≠ none) :
    post = [] := by
  cases post with
  | nil => rfl
  | cons y post =>
    have h1 := h.1
    rw [htr, List.chain'_split, List.chain'_cons] at h1
    exact absurd h1.2.1.1 hx

/-- In an ordered stretch of events every event has a predecessor that `Follows`
relates to it, when it is an acknowledging commit. -/
theorem ordered_predecessor (c : Collaborators D S L SDTO LDTO E) (sub rg : String)
    (tr pre post : List (Event S L SDTO LDTO)) (y : Event S L SDTO LDTO)
    (h : Ordered c sub rg tr) (htr : tr = pre ++ y :: post) (hy : y.acknowledges = true) :
    ∃ pre2 x, pre = pre2 ++ [x] ∧ Follows c sub rg x y := by
  rcases List.eq_nil_or_concat pre with hpre | ⟨pre2, x, hpre⟩
  on_goal 2 => rw [List.concat_eq_append] at hpre
  · subst hpre
    have h2 := h.2 y (by rw [htr]; simp)
    rw [hy] at h2
    cases h2
  · refine ⟨pre2, x, hpre, ?_⟩
    have h1 := h.1
    rw [htr, hpre, List.append_assoc, List.singleton_append, List.chain'_split,
      List.chain'_cons] at h1
    exact h1.2.1

/-- C2: in every cycle, whatever the remote calls return, a remote call that returns
a non-nil error is the last event of the cycle: no remote call, commit or read of
the diff tracker follows it. In particular, when the add-services call fails, the
events of the cycle are the read of the services to sync and that call, and the
cycle leaves the state it started in. -/
theorem failure_aborts_cycle {D S L SDTO LDTO E : Type}
    (c : Collaborators D S L SDTO LDTO E) (net : Network SDTO LDTO) (az : Cloud D) :
    (∀ pre x post, (process c net az).2 = pre ++ x :: post → x.failure ≠ none → post = []) ∧
    (∀ err, c.setLen (c.GetSyncLoadBalancerServices az.diffTracker).Additions > 0 →
      (NRPAPIClientUpdateNRPServices net.addServices
        (c.MapLoadBalancerUpdatesToServicesDataDTO
          (addArg c (c.GetSyncLoadBalancerServices az.diffTracker))
          az.SubscriptionID az.ResourceGroup)
        az.SubscriptionID az.ResourceGroup).1 = some err →
      (process c net az).2 =
        [Event.GetSyncLoadBalancerServices (c.GetSyncLoadBalancerServices az.diffTracker),
         Event.NRPUpdateServices
          (c.MapLoadBalancerUpdatesToServicesDataDTO
            (addArg c (c.GetSyncLoadBalancerServices az.diffTracker))
            az.SubscriptionID az.ResourceGroup) (some err)] ∧
      (process c net az).1 = az) := by
  refine ⟨?_, ?_⟩
  · intro pre x post htr hx
    exact ordered_failure_last c _ _ _ pre post x (process_core c net az).1 htr hx
  · intro err hlen hres
    unfold addArg at hres
    have h1 : addServices c net (c.GetSyncLoadBalancerServices az.diffTracker) az =
        (none, [Event.NRPUpdateServices
          (c.MapLoadBalancerUpdatesToServicesDataDTO
            (addArg c (c.GetSyncLoadBalancerServices az.diffTracker))
            az.SubscriptionID az.ResourceGroup) (some err)]) := by
      simp only [addServices, hlen, if_true, hres, addArg]
    simp only [process, h1]
    exact ⟨by simp, trivial⟩

/-- C2 at the sample cycle on `refusingNetwork`: the refused add-services call is
the last event, and the diff tracker is left as it was. -/
theorem failure_aborts_cycle_witness :
    (process sampleCollaborators refusingNetwork sampleCloud).2 =
      [Event.GetSyncLoadBalancerServices { Additions := ["svc-a"], Removals := ["svc-b"] },
       Event.NRPUpdateServices (["svc-a"], [])
        (some (NRPError.sendFailed "connection refused"))] ∧
    (process sampleCollaborators refusingNetwork sampleCloud).1 = sampleCloud :=
  (failure_aborts_cycle sampleCollaborators refusingNetwork sampleCloud).2
    (NRPError.sendFailed "connection refused") (by decide) (by decide)

/-- C3: in every cycle, whatever the remote calls return, a commit of services is
directly preceded by the `UpdateServices` call that sent the DTO of the committed
services and returned nil, and the commit of locations by the `UpdateLocations` call
that sent the DTO of the committed location data and returned nil; after a remote
call that returns a non-nil error no commit occurs, so the diff tracker the cycle
leaves is the one the commits before that call gave; and in every cycle the diff
tracker left is the initial one with the commits of the cycle applied in order. -/
theorem commit_only_after_success {D S L SDTO LDTO E : Type}
    (c : Collaborators D S L SDTO LDTO E) (net : Network SDTO LDTO) (az : Cloud D) :
    (∀ pre arg post, (process c net az).2 = pre ++ Event.UpdateNRPLoadBalancers arg :: post →
      ∃ pre2, pre = pre2 ++
        [Event.NRPUpdateServices
          (c.MapLoadBalancerUpdatesToServicesDataDTO arg az.SubscriptionID az.ResourceGroup)
          none]) ∧
    (∀ pre l post, (process c net az).2 = pre ++ Event.UpdateLocationsAddresses l :: post →
      ∃ pre2, pre = pre2 ++ [Event.NRPUpdateLocations (c.MapLocationDataToDTO l) none]) ∧
    (∀ pre x post, (process c net az).2 = pre ++ x :: post → x.failure ≠ none →
      (∀ y ∈ x :: post, y.isCommit = false) ∧
      (process c net az).1.diffTracker = replayCommits c az.diffTracker pre) ∧
    (process c net az).1.diffTracker =
      replayCommits c az.diffTracker (process c net az).2 := by
  obtain ⟨hO, hR, -⟩ := process_core c net az
  refine ⟨?_, ?_, ?_, hR⟩
  · intro pre arg post htr
    obtain ⟨pre2, x, hpre, hx⟩ := ordered_predecessor c _ _ _ pre post _ hO htr rfl
    exact ⟨pre2, by rw [hpre, hx.2.1 arg rfl]⟩
  · intro pre l post htr
    obtain ⟨pre2, x, hpre, hx⟩ := ordered_predecessor c _ _ _ pre post _ hO htr rfl
    exact ⟨pre2, by rw [hpre, hx.2.2 l rfl]⟩
  · intro pre x post htr hx
    have hpost := ordered_failure_last c _ _ _ pre post x hO htr hx
    subst hpost
    have hxc : x.isCommit = false := by
      cases x <;> simp [Event.failure, Event.isCommit] at hx ⊢
    refine ⟨by simpa using hxc, ?_⟩
    rw [hR, htr, replayCommits_append]
    cases x <;> simp [Event.isCommit] at hxc <;> rfl

/-- C3 at the sample cycle on `refusingNetwork`: the refused call is followed by no
commit and the diff tracker is the initial one. -/
theorem commit_only_after_success_witness :
    (∀ y ∈ [(Event.NRPUpdateServices (["svc-a"], [])
        (some (NRPError.sendFailed "connection refused")) :
        Event (List String) (List String) (List String × List String) (List String))],
      y.isCommit = false) ∧
    (process sampleCollaborators refusingNetwork sampleCloud).1.diffTracker =
      replayCommits sampleCollaborators sampleCloud.diffTracker
        [Event.GetSyncLoadBalancerServices { Additions := ["svc-a"], Removals := ["svc-b"] }] :=
  (commit_only_after_success sampleCollaborators refusingNetwork sampleCloud).2.2.1
    [Event.GetSyncLoadBalancerServices { Additions := ["svc-a"], Removals := ["svc-b"] }]
    (Event.NRPUpdateServices (["svc-a"], [])
      (some (NRPError.sendFailed "connection refused"))) [] (by decide) (by decide)

/-- C4: in a cycle that reaches the address propagation (no additions, or the
add-services call returned nil), the deltas committed are, in order, one for each
added service whose merged map is not empty and then one for each removed service
whose merged map is not empty. So for an added service `s` a delta with new
addresses is committed if and only if the map merged for `s` is not empty, and it
has identity `s`, the merged map as new addresses and nil old addresses;
symmetrically for a removed service, with the merged map as old addresses and nil new
addresses. Every committed delta has exactly one of the two maps, and that one is
not empty. -/
theorem endpoint_deltas {D S L SDTO LDTO E : Type}
    (c : Collaborators D S L SDTO LDTO E) (net : Network SDTO LDTO) (az : Cloud D)
    (hreach : c.setLen (c.GetSyncLoadBalancerServices az.diffTracker).Additions = 0 ∨
      (NRPAPIClientUpdateNRPServices net.addServices
        (c.MapLoadBalancerUpdatesToServicesDataDTO
          (addArg c (c.GetSyncLoadBalancerServices az.diffTracker))
          az.SubscriptionID az.ResourceGroup)
        az.SubscriptionID az.ResourceGroup).1 = none) :
    k8sCommits (process c net az).2 =
      addedDeltas c (c.GetSyncLoadBalancerServices az.diffTracker) ++
        removedDeltas c (c.GetSyncLoadBalancerServices az.diffTracker) ∧
    (∀ s, correlateAdded c s =
      { InboundIdentity := s, OldAddresses := none,
        NewAddresses := some (foldMerge (matchingMaps c true s)) }) ∧
    (∀ s, correlateRemoved c s =
      { InboundIdentity := s, OldAddresses := some (foldMerge (matchingMaps c false s)),
        NewAddresses := none }) ∧
    (∀ s ∈ c.unsortedList (c.GetSyncLoadBalancerServices az.diffTracker).Additions,
      ((∃ d ∈ k8sCommits (process c net az).2, d.InboundIdentity = s ∧ d.NewAddresses ≠ none) ↔
        (foldMerge (matchingMaps c true s)).len > 0) ∧
      (∀ d ∈ k8sCommits (process c net az).2, d.InboundIdentity = s → d.NewAddresses ≠ none →
        d = { InboundIdentity := s, OldAddresses := none,
              NewAddresses := some (foldMerge (matchingMaps c true s)) })) ∧
    (∀ s ∈ c.unsortedList (c.GetSyncLoadBalancerServices az.diffTracker).Removals,
      ((∃ d ∈ k8sCommits (process c net az).2, d.InboundIdentity = s ∧ d.OldAddresses ≠ none) ↔
        (foldMerge (matchingMaps c false s)).len > 0) ∧
      (∀ d ∈ k8sCommits (process c net az).2, d.InboundIdentity = s → d.OldAddresses ≠ none →
        d = { InboundIdentity := s, OldAddresses := some (foldMerge (matchingMaps c false s)),
              NewAddresses := none })) ∧
    (∀ d ∈ k8sCommits (process c net az).2,
      (d.OldAddresses = none ∧ ∃ m, d.NewAddresses = some m ∧ m.len > 0) ∨
      (d.NewAddresses = none ∧ ∃ m, d.OldAddresses = some m ∧ m.len > 0)) := by
  have hadd : (addServices c net (c.GetSyncLoadBalancerServices az.diffTracker) az).1 ≠ none := by
    unfold addArg at hreach
    rcases hreach with h | h
    · simp [addServices, h]
    · by_cases hl : c.setLen (c.GetSyncLoadBalancerServices az.diffTracker).Additions > 0
      · simp [addServices, hl, h]
      · simp [addServices, hl]
  have hk := (process_core c net az).2.2 hadd
  have memA : ∀ d, d ∈ addedDeltas c (c.GetSyncLoadBalancerServices az.diffTracker) ↔
      ∃ s ∈ c.unsortedList (c.GetSyncLoadBalancerServices az.diffTracker).Additions,
        (foldMerge (matchingMaps c true s)).len > 0 ∧
        d = { InboundIdentity := s, OldAddresses := none,
              NewAddresses := some (foldMerge (matchingMaps c true s)) } := by
    intro d
    unfold addedDeltas
    rw [List.mem_filterMap]
    constructor
    · rintro ⟨s, hs, h⟩
      by_cases hl : (foldMerge (matchingMaps c true s)).len > 0
      · rw [if_pos hl] at h
        exact ⟨s, hs, hl, (Option.some.inj h).symm⟩
      · rw [if_neg hl] at h
        cases h
    · rintro ⟨s, hs, hl, rfl⟩
      exact ⟨s, hs, by rw [if_pos hl]⟩
  have memR : ∀ d, d ∈ removedDeltas c (c.GetSyncLoadBalancerServices az.diffTracker) ↔
      ∃ s ∈ c.unsortedList (c.GetSyncLoadBalancerServices az.diffTracker).Removals,
        (foldMerge (matchingMaps c false s)).len > 0 ∧
        d = { InboundIdentity := s, OldAddresses := some (foldMerge (matchingMaps c false s)),
              NewAddresses := none } := by
    intro d
    unfold removedDeltas
    rw [List.mem_filterMap]
    constructor
    · rintro ⟨s, hs, h⟩
      by_cases hl : (foldMerge (matchingMaps c false s)).len > 0
      · rw [if_pos hl] at h
        exact ⟨s, hs, hl, (Option.some.inj h).symm⟩
      · rw [if_neg hl] at h
        cases h
    · rintro ⟨s, hs, hl, rfl⟩
      exact ⟨s, hs, by rw [if_pos hl]⟩
  refine ⟨hk, correlateAdded_eq c, correlateRemoved_eq c, ?_, ?_, ?_⟩
  · intro s hs
    rw [hk]
    refine ⟨⟨?_, ?_⟩, ?_⟩
    · rintro ⟨d, hd, hid, hnew⟩
      rcases List.mem_append.1 hd with h | h
      · obtain ⟨s2, _, hl, rfl⟩ := (memA d).1 h
        simp only at hid
        subst hid
        exact hl
      · obtain ⟨s2, _, _, rfl⟩ := (memR d).1 h
        exact absurd rfl hnew
    · intro hl
      exact ⟨_, List.mem_append_left _ ((memA _).2 ⟨s, hs, hl, rfl⟩), rfl, by simp⟩
    · intro d hd hid hnew
      rcases List.mem_append.1 hd with h | h
      · obtain ⟨s2, _, hl, rfl⟩ := (memA d).1 h
        simp only at hid
        subst hid
        rfl
      · obtain ⟨s2, _, _, rfl⟩ := (memR d).1 h
        exact absurd rfl hnew
  · intro s hs
    rw [hk]
    refine ⟨⟨?_, ?_⟩, ?_⟩
    · rintro ⟨d, hd, hid, hold⟩
      rcases List.mem_append.1 hd with h | h
      · obtain ⟨s2, _, _, rfl⟩ := (memA d).1 h
        exact absurd rfl hold
      · obtain ⟨s2, _, hl, rfl⟩ := (memR d).1 h
        simp only at hid
        subst hid
        exact hl
    · intro hl
      exact ⟨_, List.mem_append_right _ ((memR _).2 ⟨s, hs, hl, rfl⟩), rfl, by simp⟩
    · intro d hd hid hold
      rcases List.mem_append.1 hd with h | h
      · obtain ⟨s2, _, _, rfl⟩ := (memA d).1 h
        exact absurd rfl hold
      · obtain ⟨s2, _, hl, rfl⟩ := (memR d).1 h
        simp only at hid
        subst hid
        rfl
  · intro d hd
    rw [hk] at hd
    rcases List.mem_append.1 hd with h | h
    · obtain ⟨s2, _, hl, rfl⟩ := (memA d).1 h
      exact Or.inl ⟨rfl, _, rfl, hl⟩
    · obtain ⟨s2, _, hl, rfl⟩ := (memR d).1 h
      exact Or.inr ⟨rfl, _, rfl, hl⟩

/-- C4 at the sample cycle on `acceptingNetwork`: one delta for the added `svc-a`,
merged from the two slices that match it, and one for the removed `svc-b`. -/
theorem endpoint_deltas_witness :
    k8sCommits (process sampleCollaborators acceptingNetwork sampleCloud).2 =
      addedDeltas sampleCollaborators
          (sampleCollaborators.GetSyncLoadBalancerServices sampleCloud.diffTracker) ++
        removedDeltas sampleCollaborators
          (sampleCollaborators.GetSyncLoadBalancerServices sampleCloud.diffTracker) ∧
    k8sCommits (process sampleCollaborators acceptingNetwork sampleCloud).2 =
      [{ InboundIdentity := "svc-a", OldAddresses := none,
         NewAddresses := some (foldMerge
          [GoMap.empty.set "10.0.0.1" "node-1",
           (GoMap.empty.set "10.0.0.1" "node-2").set "10.0.0.2" "node-3"]) },
       { InboundIdentity := "svc-b",
         OldAddresses := some (foldMerge [GoMap.empty.set "10.0.0.9" "node-9"]),
         NewAddresses := none }] :=
  ⟨(endpoint_deltas sampleCollaborators acceptingNetwork sampleCloud
      (Or.inr (by decide))).1, by decide⟩

/-- C1: in a cycle in which the additions and the removals are not empty, the
location data read from the diff tracker has at least one location and every remote
call returns nil, the remote calls and commits are exactly, in this order: the
`UpdateServices` call with the additions only, the commit of the additions, the
deltas of the added services, the deltas of the removed services, the
`UpdateLocations` call, the commit of the locations, the `UpdateServices` call with
the removals only, the commit of the removals. The location data is read after the
deltas are committed and is the data sent and committed. -/
theorem ordered_sync_trace {D S L SDTO LDTO E : Type}
    (c : Collaborators D S L SDTO LDTO E) (net : Network SDTO LDTO) (az : Cloud D)
    (hadd : c.setLen (c.GetSyncLoadBalancerServices az.diffTracker).Additions > 0)
    (hrem : c.setLen (c.GetSyncLoadBalancerServices az.diffTracker).Removals > 0)
    (hloc : ∀ l, Event.GetSyncLocationsAddresses l ∈ (process c net az).2 →
      c.locationsLen l > 0)
    (hnil : ∀ x ∈ (process c net az).2, x.failure = none) :
    ∃ l,
      l = c.GetSyncLocationsAddresses
        (replayCommits c az.diffTracker
          (Event.UpdateNRPLoadBalancers (addArg c (c.GetSyncLoadBalancerServices az.diffTracker))
            :: ((addedDeltas c (c.GetSyncLoadBalancerServices az.diffTracker)).map
                  Event.UpdateK8sEndpoints ++
                (removedDeltas c (c.GetSyncLoadBalancerServices az.diffTracker)).map
                  (Event.UpdateK8sEndpoints : _ → Event S L SDTO LDTO)))) ∧
      ops (process c net az).2 =
        [Event.NRPUpdateServices
          (c.MapLoadBalancerUpdatesToServicesDataDTO
            (addArg c (c.GetSyncLoadBalancerServices az.diffTracker))
            az.SubscriptionID az.ResourceGroup) none,
         Event.UpdateNRPLoadBalancers (addArg c (c.GetSyncLoadBalancerServices az.diffTracker))] ++
        (addedDeltas c (c.GetSyncLoadBalancerServices az.diffTracker)).map
          Event.UpdateK8sEndpoints ++
        (removedDeltas c (c.GetSyncLoadBalancerServices az.diffTracker)).map
          Event.UpdateK8sEndpoints ++
        [Event.NRPUpdateLocations (c.MapLocationDataToDTO l) none,
         Event.UpdateLocationsAddresses l,
         Event.NRPUpdateServices
          (c.MapLoadBalancerUpdatesToServicesDataDTO
            (removeArg c (c.GetSyncLoadBalancerServices az.diffTracker))
            az.SubscriptionID az.ResourceGroup) none,
         Event.UpdateNRPLoadBalancers
          (removeArg c (c.GetSyncLoadBalancerServices az.diffTracker))] ∧
      (process c net az).2 =
        [Event.GetSyncLoadBalancerServices (c.GetSyncLoadBalancerServices az.diffTracker)] ++
          [Event.NRPUpdateServices
            (c.MapLoadBalancerUpdatesToServicesDataDTO
              (addArg c (c.GetSyncLoadBalancerServices az.diffTracker))
              az.SubscriptionID az.ResourceGroup) none,
           Event.UpdateNRPLoadBalancers
            (addArg c (c.GetSyncLoadBalancerServices az.diffTracker))] ++
          (addedDeltas c (c.GetSyncLoadBalancerServices az.diffTracker)).map
            Event.UpdateK8sEndpoints ++
          (removedDeltas c (c.GetSyncLoadBalancerServices az.diffTracker)).map
            Event.UpdateK8sEndpoints ++
          [Event.GetSyncLocationsAddresses l,
           Event.NRPUpdateLocations (c.MapLocationDataToDTO l) none,
           Event.UpdateLocationsAddresses l,
           Event.NRPUpdateServices
            (c.MapLoadBalancerUpdatesToServicesDataDTO
              (removeArg c (c.GetSyncLoadBalancerServices az.diffTracker))
              az.SubscriptionID az.ResourceGroup) none,
           Event.UpdateNRPLoadBalancers
            (removeArg c (c.GetSyncLoadBalancerServices az.diffTracker))] := by
  have hopsD : ∀ ds : List UpdateK8sEndpointsInputType,
      (ds.map (Event.UpdateK8sEndpoints : _ → Event S L SDTO LDTO)).filter Event.isOp =
        ds.map Event.UpdateK8sEndpoints := by
    intro ds
    rw [List.filter_eq_self]
    intro x hx
    obtain ⟨d, _, rfl⟩ := List.mem_map.1 hx
    rfl
  cases hrA : (NRPAPIClientUpdateNRPServices net.addServices
      (c.MapLoadBalancerUpdatesToServicesDataDTO
        { Additions := (c.GetSyncLoadBalancerServices az.diffTracker).Additions,
          Removals := c.nilSet }
        az.SubscriptionID az.ResourceGroup) az.SubscriptionID az.ResourceGroup).1 with
  | some err =>
    exfalso
    have hp : (process c net az).2 =
        [Event.GetSyncLoadBalancerServices (c.GetSyncLoadBalancerServices az.diffTracker),
         Event.NRPUpdateServices
          (c.MapLoadBalancerUpdatesToServicesDataDTO
            { Additions := (c.GetSyncLoadBalancerServices az.diffTracker).Additions,
              Removals := c.nilSet }
            az.SubscriptionID az.ResourceGroup) (some err)] := by
      simp [process, addServices, hadd, hrA]
    have := hnil _ (by rw [hp]; exact List.mem_cons_of_mem _ (List.mem_cons_self _ _))
    simp [Event.failure] at this
  | none =>
    have h1 : addServices c net (c.GetSyncLoadBalancerServices az.diffTracker) az =
        (some
          { az with
            diffTracker :=
              (c.UpdateNRPLoadBalancers az.diffTracker
                (addArg c (c.GetSyncLoadBalancerServices az.diffTracker))) },
         [Event.NRPUpdateServices
            (c.MapLoadBalancerUpdatesToServicesDataDTO
              (addArg c (c.GetSyncLoadBalancerServices az.diffTracker))
              az.SubscriptionID az.ResourceGroup) none,
          Event.UpdateNRPLoadBalancers
            (addArg c (c.GetSyncLoadBalancerServices az.diffTracker))]) := by
      simp only [addServices, hadd, if_true, hrA, addArg]
    have hd3 : replayCommits c az.diffTracker
        (Event.UpdateNRPLoadBalancers (addArg c (c.GetSyncLoadBalancerServices az.diffTracker))
          :: ((addedDeltas c (c.GetSyncLoadBalancerServices az.diffTracker)).map
                Event.UpdateK8sEndpoints ++
              (removedDeltas c (c.GetSyncLoadBalancerServices az.diffTracker)).map
                (Event.UpdateK8sEndpoints : _ → Event S L SDTO LDTO))) =
        (removedDeltas c (c.GetSyncLoadBalancerServices az.diffTracker)).foldl
          c.UpdateK8sEndpoints
          ((addedDeltas c (c.GetSyncLoadBalancerServices az.diffTracker)).foldl
            c.UpdateK8sEndpoints
            (c.UpdateNRPLoadBalancers az.diffTracker
              (addArg c (c.GetSyncLoadBalancerServices az.diffTracker)))) := by
      rw [← List.singleton_append, replayCommits_append, replayCommits_append,
        replayCommits_deltas, replayCommits_deltas]
      rfl
    rw [hd3]
    refine ⟨_, rfl, ?_⟩
    by_cases hlen : c.locationsLen (c.GetSyncLocationsAddresses
        ((removedDeltas c (c.GetSyncLoadBalancerServices az.diffTracker)).foldl
          c.UpdateK8sEndpoints
          ((addedDeltas c (c.GetSyncLoadBalancerServices az.diffTracker)).foldl
            c.UpdateK8sEndpoints
            (c.UpdateNRPLoadBalancers az.diffTracker
              (addArg c (c.GetSyncLoadBalancerServices az.diffTracker)))))) > 0
    · cases hrL : (NRPAPIClientUpdateNRPLocations net.updateLocations
          (c.MapLocationDataToDTO (c.GetSyncLocationsAddresses
            ((removedDeltas c (c.GetSyncLoadBalancerServices az.diffTracker)).foldl
              c.UpdateK8sEndpoints
              ((addedDeltas c (c.GetSyncLoadBalancerServices az.diffTracker)).foldl
                c.UpdateK8sEndpoints
                (c.UpdateNRPLoadBalancers az.diffTracker
                  (addArg c (c.GetSyncLoadBalancerServices az.diffTracker)))))))
          az.SubscriptionID az.ResourceGroup).1 with
      | some err =>
        exfalso
        have hmem : Event.NRPUpdateLocations
            (c.MapLocationDataToDTO (c.GetSyncLocationsAddresses
              ((removedDeltas c (c.GetSyncLoadBalancerServices az.diffTracker)).foldl
                c.UpdateK8sEndpoints
                ((addedDeltas c (c.GetSyncLoadBalancerServices az.diffTracker)).foldl
                  c.UpdateK8sEndpoints
                  (c.UpdateNRPLoadBalancers az.diffTracker
                    (addArg c (c.GetSyncLoadBalancerServices az.diffTracker)))))))
            (some err) ∈ (process c net az).2 := by
          simp [process, h1, propagateAdded_eq, propagateRemoved_eq, updateLocations, hlen, hrL]
        have := hnil _ hmem
        simp [Event.failure] at this
      | none =>
        cases hrR : (NRPAPIClientUpdateNRPServices net.removeServices
            (c.MapLoadBalancerUpdatesToServicesDataDTO
              { Additions := c.nilSet,
                Removals := (c.GetSyncLoadBalancerServices az.diffTracker).Removals }
              az.SubscriptionID az.ResourceGroup) az.SubscriptionID az.ResourceGroup).1 with
        | some err =>
          exfalso
          have hmem : Event.NRPUpdateServices
              (c.MapLoadBalancerUpdatesToServicesDataDTO
                { Additions := c.nilSet,
                  Removals := (c.GetSyncLoadBalancerServices az.diffTracker).Removals }
                az.SubscriptionID az.ResourceGroup)
              (some err) ∈ (process c net az).2 := by
            simp [process, h1, propagateAdded_eq, propagateRemoved_eq, updateLocations, hlen,
              hrL, removeServices, hrem, hrR]
          have := hnil _ hmem
          simp [Event.failure] at this
        | none =>
          refine ⟨?_, ?_⟩
          · simp [process, h1, propagateAdded_eq, propagateRemoved_eq, updateLocations, hlen,
              hrL, removeServices, hrem, hrR, ops, List.filter_append, hopsD, Event.isOp,
              removeArg]
          · simp [process, h1, propagateAdded_eq, propagateRemoved_eq, updateLocations, hlen,
              hrL, removeServices, hrem, hrR, removeArg]
    · exfalso
      have hmem : Event.GetSyncLocationsAddresses
          (c.GetSyncLocationsAddresses
            ((removedDeltas c (c.GetSyncLoadBalancerServices az.diffTracker)).foldl
              c.UpdateK8sEndpoints
              ((addedDeltas c (c.GetSyncLoadBalancerServices az.diffTracker)).foldl
                c.UpdateK8sEndpoints
                (c.UpdateNRPLoadBalancers az.diffTracker
                  (addArg c (c.GetSyncLoadBalancerServices az.diffTracker)))))) ∈
          (process c net az).2 := by
        cases hrR : (NRPAPIClientUpdateNRPServices net.removeServices
            (c.MapLoadBalancerUpdatesToServicesDataDTO
              { Additions := c.nilSet,
                Removals := (c.GetSyncLoadBalancerServices az.diffTracker).Removals }
              az.SubscriptionID az.ResourceGroup) az.SubscriptionID az.ResourceGroup).1 with
        | some err =>
          simp [process, h1, propagateAdded_eq, propagateRemoved_eq, updateLocations, hlen,
            removeServices, hrem, hrR]
        | none =>
          simp [process, h1, propagateAdded_eq, propagateRemoved_eq, updateLocations, hlen,
            removeServices, hrem, hrR]
      exact hlen (hloc _ hmem)

/-- C1 at the sample cycle on `acceptingNetwork`. -/
theorem ordered_sync_trace_witness :
    ∃ l,
      l = sampleCollaborators.GetSyncLocationsAddresses
        (replayCommits sampleCollaborators sampleCloud.diffTracker
          (Event.UpdateNRPLoadBalancers
              (addArg sampleCollaborators
                (sampleCollaborators.GetSyncLoadBalancerServices sampleCloud.diffTracker))
            :: ((addedDeltas sampleCollaborators
                  (sampleCollaborators.GetSyncLoadBalancerServices
                    sampleCloud.diffTracker)).map Event.UpdateK8sEndpoints ++
                (removedDeltas sampleCollaborators
                  (sampleCollaborators.GetSyncLoadBalancerServices
                    sampleCloud.diffTracker)).map
                  (Event.UpdateK8sEndpoints :
                    _ → Event (List String) (List String) (List String × List String)
                      (List String))))) ∧
      ops (process sampleCollaborators acceptingNetwork sampleCloud).2 =
        [Event.NRPUpdateServices
          (sampleCollaborators.MapLoadBalancerUpdatesToServicesDataDTO
            (addArg sampleCollaborators
              (sampleCollaborators.GetSyncLoadBalancerServices sampleCloud.diffTracker))
            sampleCloud.SubscriptionID sampleCloud.ResourceGroup) none,
         Event.UpdateNRPLoadBalancers
          (addArg sampleCollaborators
            (sampleCollaborators.GetSyncLoadBalancerServices sampleCloud.diffTracker))] ++
        (addedDeltas sampleCollaborators
          (sampleCollaborators.GetSyncLoadBalancerServices sampleCloud.diffTracker)).map
          Event.UpdateK8sEndpoints ++
        (removedDeltas sampleCollaborators
          (sampleCollaborators.GetSyncLoadBalancerServices sampleCloud.diffTracker)).map
          Event.UpdateK8sEndpoints ++
        [Event.NRPUpdateLocations (sampleCollaborators.MapLocationDataToDTO l) none,
         Event.UpdateLocationsAddresses l,
         Event.NRPUpdateServices
          (sampleCollaborators.MapLoadBalancerUpdatesToServicesDataDTO
            (removeArg sampleCollaborators
              (sampleCollaborators.GetSyncLoadBalancerServices sampleCloud.diffTracker))
            sampleCloud.SubscriptionID sampleCloud.ResourceGroup) none,
         Event.UpdateNRPLoadBalancers
          (removeArg sampleCollaborators
            (sampleCollaborators.GetSyncLoadBalancerServices sampleCloud.diffTracker))] := by
  obtain ⟨l, hl, hops, -⟩ := ordered_sync_trace sampleCollaborators acceptingNetwork sampleCloud
    (by decide) (by decide)
    (fun l hl => by
      have h : ∀ x ∈ (process sampleCollaborators acceptingNetwork sampleCloud).2,
          x.readsNoLocation sampleCollaborators = false := by decide
      have h2 := h _ hl
      simp only [Event.readsNoLocation, decide_eq_false_iff_not] at h2
      exact Nat.pos_of_ne_zero h2)
    (by decide)
  exact ⟨l, hl, hops⟩

end Cycle

end BatchUpdater
